import Mathlib

set_option maxHeartbeats 1000000
set_option autoImplicit false

/-!
Shallow embedding of the decision-and-action core of the agent:
the goal scheduler (src/cognitive/goal_planner.rs), the negotiation
ledger (src/systems/economy.rs), the action queue executor
(src/systems/motor.rs) and the threat predictor
(src/systems/spider_sense.rs), together with proofs of the stated
properties.

Modelling conventions:
- `u32` quantities and counters become `Nat`; `i32` scores become `Int`.
- `DateTime<Utc>` timestamps become `Int`, measured in hours, so the
  age test `signed_duration_since(created_at).num_hours() > 24`
  becomes `now - created_at > 24`.
- `f32` health values become `Rat`; the thresholds 4.0 and 10.0 are
  exactly representable, so the comparisons agree with the source.
- `uuid::Uuid::new_v4()` is modelled by a caller-supplied fresh `Nat`
  identifier; freshness (which real uuids provide) is an explicit
  hypothesis where it matters.
- Rust `HashMap` item-count maps become total functions with default
  0; the ledger map becomes a function into `Option`.
- `println!` logging is dropped; it has no observable effect on state.
-/

/-! ## Goal planner (src/cognitive/goal_planner.rs) -/

inductive GoalPriority
  | critical
  | high
  | medium
  | low
  | background
  | social
deriving DecidableEq, Repr

/-- Numeric value of a priority, as in the Rust enum discriminants
(`Critical = 0` through `Social = 5`); `min_by_key(|g| g.priority)`
compares by this value. -/
def GoalPriority.num : GoalPriority → Nat
  | .critical => 0
  | .high => 1
  | .medium => 2
  | .low => 3
  | .background => 4
  | .social => 5

inductive GoalStatus
  | pending
  | active
  | paused
  | completed
  | failed
  | abandoned
deriving DecidableEq, Repr

structure Goal where
  id : Nat
  name : String
  description : String
  priority : GoalPriority
  status : GoalStatus
  created_at : Int
  deadline : Option Int
  parent_goal : Option Nat
  sub_goals : List Nat
  preconditions : List String
  attempts : Nat
  max_attempts : Nat
deriving DecidableEq, Repr

/-- Goal::new — fresh goal with Pending status, 0 attempts, 5 max attempts. -/
def Goal.new (id : Nat) (name description : String) (priority : GoalPriority)
    (now : Int) : Goal :=
  { id := id, name := name, description := description, priority := priority,
    status := .pending, created_at := now, deadline := none, parent_goal := none,
    sub_goals := [], preconditions := [], attempts := 0, max_attempts := 5 }

/-- Goal::is_actionable. -/
def Goal.is_actionable (g : Goal) : Bool :=
  g.status == .pending || g.status == .active

structure GoalPlanner where
  goals : List Goal
  active_goal : Option Nat
  completed_count : Nat
  failed_count : Nat
deriving DecidableEq, Repr

/-- Mutate the first element satisfying the predicate, as Rust's
`iter_mut().find(p)` followed by an in-place update. -/
def updateFirst (p : Goal → Bool) (f : Goal → Goal) : List Goal → List Goal
  | [] => []
  | g :: gs => if p g then f g :: gs else g :: updateFirst p f gs

/-- Rust `Iterator::min_by_key` on the priority value: returns the first
element attaining the minimum (on ties the first element wins). -/
def minByPriority : List Goal → Option Goal
  | [] => none
  | g :: gs =>
    match minByPriority gs with
    | none => some g
    | some m => if g.priority.num ≤ m.priority.num then some g else some m

/-- GoalPlanner::current_goal. If an active-goal reference exists, return
the first goal with that id that is still actionable (there is no
fallback in that branch); otherwise return the lowest-priority actionable
goal. -/
def GoalPlanner.current_goal (pl : GoalPlanner) : Option Goal :=
  match pl.active_goal with
  | some i => pl.goals.find? (fun g => g.id == i && g.is_actionable)
  | none => minByPriority (pl.goals.filter (fun g => g.is_actionable))

/-- The pause-current prelude of GoalPlanner::pick_next (and the pause
step of GoalPlanner::emergency): the goal referenced by `active_goal`,
if it has status Active, is demoted to Paused. -/
def pauseF (g : Goal) : Goal :=
  if g.status == .active then { g with status := .paused } else g

def GoalPlanner.pauseStep (pl : GoalPlanner) : GoalPlanner :=
  match pl.active_goal with
  | some i => { pl with goals := updateFirst (fun g => g.id == i) pauseF pl.goals }
  | none => pl

/-- Candidates considered by pick_next: goals with status Pending or Paused. -/
def selectable (g : Goal) : Bool :=
  g.status == .pending || g.status == .paused

/-- Status assignment, as in the in-place `g.status = ...` updates. -/
def setStatus (s : GoalStatus) (g : Goal) : Goal :=
  { g with status := s }

/-- The selection update of pick_next: mark Active and count the attempt. -/
def activateF (g : Goal) : Goal :=
  { g with status := .active, attempts := g.attempts + 1 }

/-- GoalPlanner::pick_next. Pauses the referenced Active goal, picks the
first minimal-priority Pending or Paused goal, marks the first goal
carrying its id Active with one more attempt, and returns
`current_goal` of the resulting planner. -/
def GoalPlanner.pick_next (pl : GoalPlanner) : GoalPlanner × Option Goal :=
  let pl1 := pl.pauseStep
  match (minByPriority (pl1.goals.filter selectable)).map (fun g => g.id) with
  | some i =>
    let pl2 : GoalPlanner :=
      { pl1 with
        goals := updateFirst (fun g => g.id == i) activateF pl1.goals,
        active_goal := some i }
    (pl2, pl2.current_goal)
  | none => (pl1, pl1.current_goal)

/-- GoalPlanner::complete_current. `active_goal.take()` clears the
reference; if a goal with the taken id exists it becomes Completed and
the completed counter is incremented. -/
def GoalPlanner.complete_current (pl : GoalPlanner) : GoalPlanner :=
  match pl.active_goal with
  | some i =>
    match pl.goals.find? (fun g => g.id == i) with
    | some _ =>
      { pl with
        goals := updateFirst (fun g => g.id == i) (setStatus .completed) pl.goals,
        completed_count := pl.completed_count + 1,
        active_goal := none }
    | none => { pl with active_goal := none }
  | none => pl

/-- GoalPlanner::fail_current. The referenced goal becomes Failed (and
the failed counter is incremented) when its attempts have reached
max_attempts, otherwise Paused; the reference is cleared in all cases. -/
def GoalPlanner.fail_current (pl : GoalPlanner) : GoalPlanner :=
  match pl.active_goal with
  | some i =>
    match pl.goals.find? (fun g => g.id == i) with
    | some g =>
      if g.max_attempts ≤ g.attempts then
        { pl with
          goals := updateFirst (fun h => h.id == i) (setStatus .failed) pl.goals,
          failed_count := pl.failed_count + 1,
          active_goal := none }
      else
        { pl with
          goals := updateFirst (fun h => h.id == i) (setStatus .paused) pl.goals,
          active_goal := none }
    | none => { pl with active_goal := none }
  | none => { pl with active_goal := none }

/-- GoalPlanner::add_goal — push the submitted goal at the back. -/
def GoalPlanner.add_goal (pl : GoalPlanner) (g : Goal) : GoalPlanner :=
  { pl with goals := pl.goals ++ [g] }

/-- The goal constructed by GoalPlanner::emergency before insertion:
Critical priority, immediately Active, a single allowed attempt. -/
def emergencyGoal (id : Nat) (name description : String) (now : Int) : Goal :=
  { Goal.new id name description .critical now with status := .active, max_attempts := 1 }

/-- GoalPlanner::emergency. Pushes the new Active goal, then pauses the
goal referenced by the old `active_goal` if it is Active, and points the
reference at the new goal. -/
def GoalPlanner.emergency (pl : GoalPlanner) (id : Nat) (name description : String)
    (now : Int) : GoalPlanner :=
  let goals1 := pl.goals ++ [emergencyGoal id name description now]
  let goals2 :=
    match pl.active_goal with
    | some aid => updateFirst (fun g => g.id == aid) pauseF goals1
    | none => goals1
  { pl with goals := goals2, active_goal := some id }

/-- GoalPlanner::seed_initial_goals, with ids 0 through 7 standing for
the generated uuids. -/
def seedGoals (now : Int) : List Goal :=
  [Goal.new 0 "Sobreviver a Primeira Noite" "Conseguir madeira, craftar ferramentas basicas, fazer abrigo" .critical now,
   Goal.new 1 "Craftar Ferramentas de Pedra" "Picareta, machado, espada de pedra" .high now,
   Goal.new 2 "Encontrar Comida" "Matar animais ou achar sementes pra farm" .critical now,
   Goal.new 3 "Estabelecer Base" "Construir uma casa basica com cama, bau, furnace" .high now,
   Goal.new 4 "Minerar Ferro" "Descer pra caverna ou strip mine e pegar ferro" .medium now,
   Goal.new 5 "Criar Farm de Trigo" "Plantar pelo menos 9x9 de trigo com agua" .medium now,
   Goal.new 6 "Conseguir Diamante" "Strip mine no Y11 ate achar diamante" .low now,
   Goal.new 7 "Encantamento" "Mesa de encantamento + estantes" .background now]

/-- GoalPlanner::default — the seeded initial planner. -/
def GoalPlanner.default (now : Int) : GoalPlanner :=
  { goals := seedGoals now, active_goal := none, completed_count := 0, failed_count := 0 }

/-! ### Operation sequences over the planner -/

inductive GPOp
  | submit (g : Goal)
  | select_next
  | preempt (id : Nat) (name description : String) (now : Int)
  | complete
  | fail
deriving DecidableEq, Repr

def GPOp.step (pl : GoalPlanner) : GPOp → GoalPlanner
  | .submit g => pl.add_goal g
  | .select_next => (pl.pick_next).1
  | .preempt id name description now => pl.emergency id name description now
  | .complete => pl.complete_current
  | .fail => pl.fail_current

def GPOp.run (pl : GoalPlanner) : List GPOp → GoalPlanner
  | [] => pl
  | op :: ops => GPOp.run (op.step pl) ops

/-- Side conditions under which an operation is issued in the program:
submitted goals are freshly created, hence Pending; emergency goals get
a fresh uuid, modelled as an id no existing goal carries and distinct
from a dangling active reference. -/
def GPOp.ok (pl : GoalPlanner) : GPOp → Prop
  | .submit g => g.status = .pending
  | .preempt id _ _ _ => (∀ g ∈ pl.goals, g.id ≠ id) ∧ pl.active_goal ≠ some id
  | _ => True

def GPOp.okRun (pl : GoalPlanner) : List GPOp → Prop
  | [] => True
  | op :: ops => op.ok pl ∧ GPOp.okRun (op.step pl) ops

instance GPOp.okDecidable (pl : GoalPlanner) : (op : GPOp) → Decidable (op.ok pl)
  | .submit _ => by unfold GPOp.ok; infer_instance
  | .select_next => by unfold GPOp.ok; infer_instance
  | .preempt _ _ _ _ => by unfold GPOp.ok; infer_instance
  | .complete => by unfold GPOp.ok; infer_instance
  | .fail => by unfold GPOp.ok; infer_instance

instance GPOp.okRunDecidable (pl : GoalPlanner) : (ops : List GPOp) → Decidable (GPOp.okRun pl ops)
  | [] => by unfold GPOp.okRun; infer_instance
  | op :: ops =>
    have := GPOp.okRunDecidable (op.step pl) ops
    by unfold GPOp.okRun; infer_instance

/-- Number of goals with status Active. -/
def countActive (l : List Goal) : Nat :=
  l.countP (fun g => g.status == .active)

/-- The reachable-state invariant of the planner: every Active goal is
the goal the `active_goal` reference points at, and is the first goal in
the backlog carrying its id; moreover at most one goal is Active. -/
def GoalPlanner.Tracked (pl : GoalPlanner) : Prop :=
  ∀ g ∈ pl.goals, g.status = .active →
    pl.active_goal = some g.id ∧ pl.goals.find? (fun h => h.id == g.id) = some g

def GoalPlanner.Inv (pl : GoalPlanner) : Prop :=
  countActive pl.goals ≤ 1 ∧ pl.Tracked

instance (pl : GoalPlanner) : Decidable pl.Tracked := by
  unfold GoalPlanner.Tracked; infer_instance

instance (pl : GoalPlanner) : Decidable pl.Inv := by
  unfold GoalPlanner.Inv; infer_instance

/-! ## Economy — negotiation ledger (src/systems/economy.rs) -/

structure Debt where
  item : String
  quantity : Nat
  created_at : Int
  reason : String
  paid : Bool
deriving DecidableEq, Repr

structure Favor where
  description : String
  weight : Int
  timestamp : Int
deriving DecidableEq, Repr

structure PlayerLedger where
  debts_owed_to_us : List Debt
  debts_we_owe : List Debt
  favors : List Favor
  total_given_to_them : String → Nat
  total_received_from_them : String → Nat
  credit_score : Int
  trade_count : Nat

/-- PlayerLedger::default. -/
def PlayerLedger.default : PlayerLedger :=
  { debts_owed_to_us := [], debts_we_owe := [], favors := [],
    total_given_to_them := fun _ => 0, total_received_from_them := fun _ => 0,
    credit_score := 0, trade_count := 0 }

/-- Add to an item-count map, as `*map.entry(item).or_insert(0) += qty`. -/
def bump (m : String → Nat) (item : String) (qty : Nat) : String → Nat :=
  fun s => if s = item then m s + qty else m s

/-- Total quantity over the unpaid debts owed to us. -/
def unpaidQuantity (debts : List Debt) : Nat :=
  ((debts.filter (fun d => !d.paid)).map (fun d => d.quantity)).sum

/-- Total quantity over the paid debts owed to us. -/
def paidQuantity (debts : List Debt) : Nat :=
  ((debts.filter (fun d => d.paid)).map (fun d => d.quantity)).sum

/-- Number of unpaid debts older than 24 hours at time `now`. -/
def oldDebtCount (debts : List Debt) (now : Int) : Nat :=
  (debts.filter (fun d => !d.paid && decide (24 < now - d.created_at))).length

/-- The credit-score formula of PlayerLedger::update_credit_score:
paid quantity times 5, minus unpaid quantity times 3, minus 10 per
unpaid debt older than 24 hours, clamped to the range -100 to 100. -/
def creditFormula (debts : List Debt) (now : Int) : Int :=
  min 100 (max (-100)
    ((paidQuantity debts : Int) * 5 - (unpaidQuantity debts : Int) * 3 -
      (oldDebtCount debts now : Int) * 10))

/-- PlayerLedger::update_credit_score at time `now`. -/
def PlayerLedger.update_credit_score (L : PlayerLedger) (now : Int) : PlayerLedger :=
  { L with credit_score := creditFormula L.debts_owed_to_us now }

structure Economy where
  ledgers : String → Option PlayerLedger
  item_values : List (String × Nat)
  total_trades : Nat

/-- The fixed item-value table of Economy::new. -/
def baseItemValues : List (String × Nat) :=
  [("diamond", 10), ("iron_ingot", 1), ("gold_ingot", 3), ("emerald", 8),
   ("netherite_ingot", 50), ("coal", 0), ("cobblestone", 0), ("oak_log", 0),
   ("bread", 0), ("cooked_porkchop", 1), ("enchanted_golden_apple", 100),
   ("elytra", 200), ("totem_of_undying", 80), ("redstone", 0)]

def Economy.new : Economy :=
  { ledgers := fun _ => none, item_values := baseItemValues, total_trades := 0 }

/-- Store a player's ledger back into the economy. -/
def Economy.setLedger (e : Economy) (player : String) (L : PlayerLedger) : Economy :=
  { e with ledgers := fun s => if s = player then some L else e.ledgers s }

/-- Economy::get_ledger — the entry for the player, defaulting to a
fresh ledger. -/
def Economy.get_ledger (e : Economy) (player : String) : PlayerLedger :=
  (e.ledgers player).getD PlayerLedger.default

/-- Economy::record_gift at time `now`: append an unpaid debt owed to
us, update the given totals, recompute the credit score. -/
def Economy.record_gift (e : Economy) (player item : String) (qty : Nat)
    (reason : String) (now : Int) : Economy :=
  let L := e.get_ledger player
  let L :=
    { L with
      total_given_to_them := bump L.total_given_to_them item qty,
      debts_owed_to_us := L.debts_owed_to_us ++
        [Debt.mk item qty now reason false] }
  e.setLedger player (L.update_credit_score now)

/-- The debt-settling loop of Economy::record_received: walk the
we-owe debts in order and mark an unpaid debt of the received item as
paid whenever the remaining received quantity covers its full quantity,
deducting that quantity; debts are never split. -/
def markPaid (remaining : Nat) (item : String) : List Debt → List Debt × Nat
  | [] => ([], remaining)
  | d :: ds =>
    if !d.paid && d.item == item && decide (d.quantity ≤ remaining) then
      let r := markPaid (remaining - d.quantity) item ds
      ({ d with paid := true } :: r.1, r.2)
    else
      let r := markPaid remaining item ds
      (d :: r.1, r.2)

/-- Economy::record_received at time `now`: update the received totals,
settle we-owe debts greedily, recompute the credit score, count the
trade. -/
def Economy.record_received (e : Economy) (player item : String) (qty : Nat)
    (now : Int) : Economy :=
  let L := e.get_ledger player
  let L := { L with total_received_from_them := bump L.total_received_from_them item qty }
  let L := { L with debts_we_owe := (markPaid qty item L.debts_we_owe).1 }
  let e := e.setLedger player (L.update_credit_score now)
  { e with total_trades := e.total_trades + 1 }

inductive TradeDecision
  | accept (remark : String)
  | refuse (remark : String)
  | negotiate (remark : String)
  | cautious (remark : String)
deriving DecidableEq, Repr

/-- Number of unpaid debts owed to us. -/
def unpaidCount (debts : List Debt) : Nat :=
  (debts.filter (fun d => !d.paid)).length

/-- Item value looked up in the table; unknown items default to 1. -/
def itemValue (values : List (String × Nat)) (item : String) : Nat :=
  ((values.find? (fun p => p.1 == item)).map (fun p => p.2)).getD 1

/-- Economy::evaluate_request, with the format strings rendered by
string concatenation. -/
def Economy.evaluate_request (e : Economy) (player item : String) (qty : Nat) :
    TradeDecision :=
  match e.ledgers player with
  | none => .cautious "nunca negociei com vc antes"
  | some L =>
    if L.credit_score < -20 then
      .refuse ("mano me deve " ++ toString (unpaidQuantity L.debts_owed_to_us) ++
        " itens ainda e quer mais?? paga primeiro")
    else if 2 < unpaidCount L.debts_owed_to_us then
      .negotiate ("te dei " ++ toString (unpaidCount L.debts_owed_to_us) ++
        " coisas e tu n devolveu nada. me arruma algo primeiro")
    else
      let value := itemValue e.item_values item * qty
      if 20 < value then
        .negotiate (item ++ " x" ++ toString qty ++ " e muito caro. o que vc tem pra trocar?")
      else if value = 0 then
        .accept "toma ai, isso n vale nada mesmo"
      else if 30 < L.credit_score then
        .accept "toma, vc e gnt boa"
      else
        .negotiate "depende, o que vc me da em troca?"

/-! ### Operation sequences over the economy -/

inductive EcOp
  | gift (player item : String) (qty : Nat) (reason : String) (now : Int)
  | receive (player item : String) (qty : Nat) (now : Int)

def EcOp.player : EcOp → String
  | .gift p _ _ _ _ => p
  | .receive p _ _ _ => p

def EcOp.time : EcOp → Int
  | .gift _ _ _ _ t => t
  | .receive _ _ _ t => t

def EcOp.step (e : Economy) : EcOp → Economy
  | .gift p i q r t => e.record_gift p i q r t
  | .receive p i q t => e.record_received p i q t

def EcOp.run (e : Economy) : List EcOp → Economy
  | [] => e
  | op :: ops => EcOp.run (op.step e) ops

/-! ## Motor system — action queue executor (src/systems/motor.rs)

The executor runs once per tick under the state lock. The random draws
of `inject_fidgets` and the `rand` calls inside command execution are
externalized as explicit parameters; the actuation calls on the azalea
client (chat, jump, rotation, goto) have no effect on `MotorInner` and
are represented by the command value the step reports as executed. -/

inductive MotorCommand
  | chat (msg : String)
  | lookAt (yaw pitch : Rat)
  | randomLook
  | jump
  | startSprint (duration_ticks : Nat)
  | sneakPulse (duration_ticks : Nat)
  | walkForward (duration_ticks : Nat)
  | fleeDirection (yaw : Rat)
  | gotoBlock (x y z : Int)
  | wanderRandom
  | log (msg : String)
deriving DecidableEq, Repr

structure ActiveAction where
  command : MotorCommand
  ticks_remaining : Nat
  started_at : Nat
deriving DecidableEq, Repr

structure MotorInner where
  command_queue : List MotorCommand
  active_action : Option ActiveAction
  tick_counter : Nat
  nearby_players : Bool
  commands_executed : Nat
  is_sprinting : Bool
  is_sneaking : Bool
  is_walking : Bool
  last_movement_time : Nat
  bot_position : Rat × Rat × Rat
deriving DecidableEq, Repr

/-- MotorInner::default at time 0. -/
def MotorInner.default : MotorInner :=
  { command_queue := [], active_action := none, tick_counter := 0,
    nearby_players := false, commands_executed := 0, is_sprinting := false,
    is_sneaking := false, is_walking := false, last_movement_time := 0,
    bot_position := (0, 64, 0) }

/-- MotorInner::queue — push at the back. -/
def MotorInner.queue (m : MotorInner) (cmd : MotorCommand) : MotorInner :=
  { m with command_queue := m.command_queue ++ [cmd] }

/-- MotorInner::queue_urgent — push at the front. -/
def MotorInner.queue_urgent (m : MotorInner) (cmd : MotorCommand) : MotorInner :=
  { m with command_queue := cmd :: m.command_queue }

/-- MotorInner::queue_len. -/
def MotorInner.queue_len (m : MotorInner) : Nat :=
  m.command_queue.length

/-- The three per-tick random draws used by inject_fidgets (the 1 percent
look roll, the 0.2 percent sneak roll, the 0.1 percent jump roll). -/
structure FidgetDraws where
  look : Bool
  sneak : Bool
  hop : Bool
deriving DecidableEq, Repr

/-- inject_fidgets: no fidget while an action is active or more than 5
commands wait; otherwise each successful roll queues its fidget. -/
def inject_fidgets (draws : FidgetDraws) (m : MotorInner) : MotorInner :=
  if m.active_action.isSome || decide (5 < m.queue_len) then m
  else
    let m := if draws.look then m.queue .randomLook else m
    let m := if m.nearby_players && draws.sneak then m.queue (.sneakPulse 4) else m
    if draws.hop then m.queue .jump else m

/-- Completion side effect when an active action's countdown reaches
zero (the cleanup match in step 2 of handle). -/
def finish_action (m : MotorInner) (cmd : MotorCommand) : MotorInner :=
  match cmd with
  | .startSprint _ => { m with is_sprinting := false, active_action := none }
  | .sneakPulse _ => { m with is_sneaking := false, active_action := none }
  | _ => { m with active_action := none }

/-- Step 3 of handle: pop the front command and execute it; timed
commands install the active action with their tick countdown. Returns
the executed command, if any. -/
def dequeue_and_execute (now : Nat) (m : MotorInner) : MotorInner × Option MotorCommand :=
  match m.command_queue with
  | [] => (m, none)
  | cmd :: rest =>
    let m := { m with command_queue := rest, commands_executed := m.commands_executed + 1 }
    match cmd with
    | .startSprint d =>
      ({ m with is_sprinting := true,
                active_action := some ⟨cmd, d, now⟩ }, some cmd)
    | .sneakPulse d =>
      ({ m with is_sneaking := true,
                active_action := some ⟨cmd, d, now⟩ }, some cmd)
    | .walkForward d =>
      ({ m with active_action := some ⟨cmd, d, now⟩ }, some cmd)
    | .fleeDirection _ =>
      ({ m with is_sprinting := true,
                active_action := some ⟨.startSprint 40, 40, now⟩ }, some cmd)
    | .gotoBlock _ _ _ =>
      ({ m with is_walking := true, last_movement_time := now }, some cmd)
    | .wanderRandom =>
      ({ m with is_walking := true, last_movement_time := now }, some cmd)
    | _ => (m, some cmd)

/-- The per-tick handle function: bump the tick counter, inject fidgets,
process the active timed action (decrement; on zero run the completion
side effect and fall through to the dequeue, otherwise stop), else
dequeue and execute one command. -/
def handle (draws : FidgetDraws) (now : Nat) (m : MotorInner) :
    MotorInner × Option MotorCommand :=
  let m1 := inject_fidgets draws { m with tick_counter := m.tick_counter + 1 }
  match m1.active_action with
  | some a =>
    let remaining := a.ticks_remaining - 1
    if remaining = 0 then
      dequeue_and_execute now (finish_action m1 a.command)
    else
      ({ m1 with active_action := some { a with ticks_remaining := remaining } }, none)
  | none => dequeue_and_execute now m1

/-- Iterate handle for `n` ticks with no fidget rolls succeeding,
collecting the executed command of each tick (first tick first). -/
def runMotor (now : Nat) : Nat → MotorInner → MotorInner × List (Option MotorCommand)
  | 0, m => (m, [])
  | n + 1, m =>
    let s := handle ⟨false, false, false⟩ now m
    let r := runMotor now n s.1
    (r.1, s.2 :: r.2)

/-! ## Spider sense — threat prediction (src/systems/spider_sense.rs) -/

inductive ThreatLevel
  | none
  | low
  | medium
  | high
  | critical
deriving DecidableEq, Repr

inductive PredictionType
  | playerGriefing
  | fallingBlock
  | creeperExplosion
  | lavaFlow
  | fallDamage
  | drowning
  | suffocationMining
  | playerAmbush
  | mobSwarm
  | starvationDeath
deriving DecidableEq, Repr

inductive PredictedAction
  | doNothing
  | placeTorch
  | placeBlock
  | sprint
  | attackFirst
  | tower
  | eatNow
  | swimUp
  | avoidDirection
  | warnChat (msg : String)
deriving DecidableEq, Repr

structure PredictedThreat where
  threat_type : PredictionType
  level : ThreatLevel
  description : String
  recommended_action : PredictedAction
  time_to_impact_ms : Nat
deriving DecidableEq, Repr

structure SpiderSense where
  active_predictions : List PredictedThreat
  predictions_made : Nat
  predictions_correct : Nat
deriving DecidableEq, Repr

/-- Rendering of the hp value in the starvation description; models the
Rust format specifier that prints the f32 rounded to 0 decimals. -/
def fmtHp (hp : Rat) : String :=
  toString (round hp)

/-- SpiderSense::predict_starvation. A pure function of the explicit
inputs (the SpiderSense state is not read). -/
def SpiderSense.predict_starvation (_s : SpiderSense) (food_level : Nat) (hp : Rat)
    (has_food : Bool) : Option PredictedThreat :=
  if food_level ≤ 6 && decide (hp < 10) && !has_food then
    some
      { threat_type := .starvationDeath,
        level := if hp < 4 then .critical else .high,
        description := "Fome: " ++ toString food_level ++ " | HP: " ++ fmtHp hp ++
          " | Sem comida!",
        recommended_action := .eatNow,
        time_to_impact_ms := if hp < 4 then 2000 else 10000 }
  else if food_level ≤ 6 && has_food then
    some
      { threat_type := .starvationDeath,
        level := .medium,
        description := "Fome baixa, comer agora",
        recommended_action := .eatNow,
        time_to_impact_ms := 5000 }
  else
    none

/-! ## Auxiliary observables and concrete states used in the theorems -/

/-- Attempts counter of the first goal carrying a given id. -/
def attemptsOf (pl : GoalPlanner) (i : Nat) : Option Nat :=
  (pl.goals.find? (fun g => g.id == i)).map (fun g => g.attempts)

def TradeDecision.isRefuse : TradeDecision → Bool
  | .refuse _ => true
  | _ => false

/-- Total quantity of the debts that were unpaid in `old` and are paid
in the corresponding position of `new`. -/
def newlyPaidQuantity (old new : List Debt) : Nat :=
  (((old.zip new).filter (fun dd => !dd.1.paid && dd.2.paid)).map
    (fun dd => dd.1.quantity)).sum

/-- A small goal with the given id, priority and status. -/
def mkGoal (id : Nat) (p : GoalPriority) (s : GoalStatus) : Goal :=
  { Goal.new id "g" "d" p 0 with status := s }

/-- A backlog holding an Active goal that the `active_goal` reference
does not track, next to a Pending goal. -/
def c1Planner : GoalPlanner :=
  { goals := [mkGoal 10 .low .active, mkGoal 11 .low .pending],
    active_goal := none, completed_count := 0, failed_count := 0 }

/-- A planner in which a Low-priority goal is Active and tracked. -/
def c5Planner : GoalPlanner :=
  { goals := [mkGoal 0 .low .active],
    active_goal := some 0, completed_count := 0, failed_count := 0 }

/-- A planner whose active-goal reference points at a goal that is no
longer actionable, while another goal is Pending. -/
def c6Planner : GoalPlanner :=
  { goals := [mkGoal 0 .low .paused, mkGoal 1 .low .pending],
    active_goal := some 0, completed_count := 0, failed_count := 0 }

/-- Goals with priorities Medium, Critical, Low submitted in that order. -/
def mclPlanner : GoalPlanner :=
  { goals := [mkGoal 0 .medium .pending, mkGoal 1 .critical .pending, mkGoal 2 .low .pending],
    active_goal := none, completed_count := 0, failed_count := 0 }

/-- A counterparty ledger with a large unpaid debt and a deadbeat score. -/
def c7Ledger : PlayerLedger :=
  { PlayerLedger.default with
    debts_owed_to_us := [Debt.mk "diamond" 30 0 "pediu" false],
    credit_score := -90 }

/-- An economy knowing one deadbeat counterparty. -/
def c7Economy : Economy :=
  { ledgers := fun s => if s = "joao" then some c7Ledger else none,
    item_values := baseItemValues, total_trades := 0 }

/-- No fidget roll succeeds. -/
def noDraws : FidgetDraws := ⟨false, false, false⟩

/-- A motor state whose queue holds a 40-tick sprint followed by a chat
command. -/
def c3Motor : MotorInner :=
  { MotorInner.default with command_queue := [.startSprint 40, .chat "oi"] }

/-- The motor state right after the sprint command has been dequeued and
installed as the active timed action. -/
def c3Installed : MotorInner :=
  (handle noDraws 0 c3Motor).1

/-! ## Helper lemmas about updateFirst, minByPriority and countActive -/

theorem updateFirst_nomatch {p : Goal → Bool} {f : Goal → Goal} :
    ∀ {l : List Goal}, (∀ g ∈ l, p g = false) → updateFirst p f l = l
  | [], _ => rfl
  | g :: gs, h => by
    have hg : p g = false := h g (List.mem_cons_self _ _)
    rw [updateFirst, if_neg (by simp [hg]),
      updateFirst_nomatch (fun x hx => h x (List.mem_cons_of_mem _ hx))]

theorem updateFirst_decomp {p : Goal → Bool} {f : Goal → Goal} {g : Goal} :
    ∀ {l₁ : List Goal} (l₂ : List Goal), (∀ h ∈ l₁, p h = false) → p g = true →
      updateFirst p f (l₁ ++ g :: l₂) = l₁ ++ f g :: l₂
  | [], l₂, _, hg => by rw [List.nil_append, updateFirst, if_pos hg, List.nil_append]
  | x :: l₁, l₂, h₁, hg => by
    have hx : p x = false := h₁ x (List.mem_cons_self _ _)
    rw [List.cons_append, updateFirst, if_neg (by simp [hx]),
      updateFirst_decomp l₂ (fun y hy => h₁ y (List.mem_cons_of_mem _ hy)) hg,
      List.cons_append]

theorem updateFirst_append_right {p : Goal → Bool} {f : Goal → Goal} {l₂ : List Goal}
    (h₂ : ∀ g ∈ l₂, p g = false) :
    ∀ l₁ : List Goal, updateFirst p f (l₁ ++ l₂) = updateFirst p f l₁ ++ l₂
  | [] => by rw [List.nil_append, updateFirst_nomatch h₂]; rfl
  | x :: l₁ => by
    by_cases hx : p x = true
    · rw [List.cons_append, updateFirst, if_pos hx, updateFirst, if_pos hx, List.cons_append]
    · rw [List.cons_append, updateFirst, if_neg hx, updateFirst, if_neg hx,
        updateFirst_append_right h₂ l₁, List.cons_append]

theorem mem_updateFirst {p : Goal → Bool} {f : Goal → Goal} {g' : Goal} :
    ∀ {l : List Goal}, g' ∈ updateFirst p f l → g' ∈ l ∨ ∃ g ∈ l, p g = true ∧ g' = f g
  | [], h => by cases h
  | x :: xs, h => by
    by_cases hx : p x = true
    · rw [updateFirst, if_pos hx] at h
      rcases List.mem_cons.mp h with h | h
      · exact Or.inr ⟨x, List.mem_cons_self _ _, hx, h⟩
      · exact Or.inl (List.mem_cons_of_mem _ h)
    · rw [updateFirst, if_neg hx] at h
      rcases List.mem_cons.mp h with h | h
      · exact Or.inl (h ▸ List.mem_cons_self _ _)
      · rcases mem_updateFirst h with h | ⟨g, hg, hpg, hfg⟩
        · exact Or.inl (List.mem_cons_of_mem _ h)
        · exact Or.inr ⟨g, List.mem_cons_of_mem _ hg, hpg, hfg⟩

theorem map_updateFirst {α : Type} {p : Goal → Bool} {f : Goal → Goal} (key : Goal → α)
    (hf : ∀ g, key (f g) = key g) :
    ∀ l : List Goal, (updateFirst p f l).map key = l.map key
  | [] => rfl
  | x :: xs => by
    by_cases hx : p x = true
    · rw [updateFirst, if_pos hx, List.map_cons, List.map_cons, hf]
    · rw [updateFirst, if_neg hx, List.map_cons, List.map_cons, map_updateFirst key hf xs]

theorem find?_attempts_updateFirst {p : Goal → Bool} {f : Goal → Goal} (i : Nat)
    (hid : ∀ g, (f g).id = g.id) (hatt : ∀ g, (f g).attempts = g.attempts) :
    ∀ l : List Goal,
      ((updateFirst p f l).find? (fun g => g.id == i)).map (fun g => g.attempts) =
        (l.find? (fun g => g.id == i)).map (fun g => g.attempts)
  | [] => rfl
  | x :: xs => by
    by_cases hx : p x = true
    · rw [updateFirst, if_pos hx]
      by_cases hxi : (x.id == i) = true
      · rw [List.find?_cons_of_pos (p := fun (g : Goal) => g.id == i) _ (by simpa [hid] using hxi),
          List.find?_cons_of_pos (p := fun (g : Goal) => g.id == i) _ hxi]
        simp [hatt]
      · rw [List.find?_cons_of_neg (p := fun (g : Goal) => g.id == i) _ (by simpa [hid] using hxi),
          List.find?_cons_of_neg (p := fun (g : Goal) => g.id == i) _ hxi]
    · rw [updateFirst, if_neg hx]
      by_cases hxi : (x.id == i) = true
      · rw [List.find?_cons_of_pos (p := fun (g : Goal) => g.id == i) _ hxi,
          List.find?_cons_of_pos (p := fun (g : Goal) => g.id == i) _ hxi]
      · rw [List.find?_cons_of_neg (p := fun (g : Goal) => g.id == i) _ hxi,
          List.find?_cons_of_neg (p := fun (g : Goal) => g.id == i) _ hxi,
          find?_attempts_updateFirst i hid hatt xs]

theorem countActive_nil : countActive [] = 0 := rfl

theorem countActive_cons (g : Goal) (l : List Goal) :
    countActive (g :: l) = countActive l + if g.status = .active then 1 else 0 := by
  rw [countActive, List.countP_cons, countActive]
  congr 1
  by_cases h : g.status = GoalStatus.active
  · simp [h]
  · simp [h]

theorem countActive_append (l₁ l₂ : List Goal) :
    countActive (l₁ ++ l₂) = countActive l₁ + countActive l₂ :=
  List.countP_append _ _ _

theorem countActive_eq_zero {l : List Goal} :
    countActive l = 0 ↔ ∀ g ∈ l, g.status ≠ .active := by
  simp [countActive, List.countP_eq_zero]

theorem minByPriority_eq_none {l : List Goal} : minByPriority l = none ↔ l = [] := by
  cases l with
  | nil => simp [minByPriority]
  | cons g gs =>
    simp only [minByPriority]
    cases minByPriority gs with
    | none => simp
    | some m =>
      by_cases h : g.priority.num ≤ m.priority.num <;> simp [h]

theorem minByPriority_mem {g : Goal} :
    ∀ {l : List Goal}, minByPriority l = some g → g ∈ l
  | [], h => by cases h
  | x :: xs, h => by
    cases hm : minByPriority xs with
    | none =>
      have h' : some x = some g := by rw [minByPriority, hm] at h; exact h
      exact (Option.some_inj.mp h') ▸ List.mem_cons_self _ _
    | some m =>
      have h' : (if x.priority.num ≤ m.priority.num then some x else some m) = some g := by
        rw [minByPriority, hm] at h; exact h
      by_cases hle : x.priority.num ≤ m.priority.num
      · rw [if_pos hle] at h'
        exact (Option.some_inj.mp h') ▸ List.mem_cons_self _ _
      · rw [if_neg hle] at h'
        exact List.mem_cons_of_mem _ (Option.some_inj.mp h' ▸ minByPriority_mem hm)

theorem minByPriority_le {g : Goal} :
    ∀ {l : List Goal}, minByPriority l = some g →
      ∀ x ∈ l, g.priority.num ≤ x.priority.num
  | [], h => by cases h
  | x :: xs, h => by
    cases hm : minByPriority xs with
    | none =>
      have h' : some x = some g := by rw [minByPriority, hm] at h; exact h
      have hx : x = g := Option.some_inj.mp h'
      have hnil : xs = [] := minByPriority_eq_none.mp hm
      subst hx; subst hnil
      intro y hy
      rcases List.mem_cons.mp hy with rfl | hy
      · exact Nat.le_refl _
      · cases hy
    | some m =>
      have h' : (if x.priority.num ≤ m.priority.num then some x else some m) = some g := by
        rw [minByPriority, hm] at h; exact h
      have hmle : ∀ y ∈ xs, m.priority.num ≤ y.priority.num := minByPriority_le hm
      by_cases hle : x.priority.num ≤ m.priority.num
      · rw [if_pos hle] at h'
        have hx : x = g := Option.some_inj.mp h'
        subst hx
        intro y hy
        rcases List.mem_cons.mp hy with rfl | hy
        · exact Nat.le_refl _
        · exact Nat.le_trans hle (hmle y hy)
      · rw [if_neg hle] at h'
        have hx : m = g := Option.some_inj.mp h'
        subst hx
        intro y hy
        rcases List.mem_cons.mp hy with rfl | hy
        · exact Nat.le_of_lt (Nat.lt_of_not_le hle)
        · exact hmle y hy

theorem minByPriority_first {g : Goal} :
    ∀ {l : List Goal}, minByPriority l = some g →
      ∃ l₁ l₂, l = l₁ ++ g :: l₂ ∧ ∀ x ∈ l₁, g.priority.num < x.priority.num
  | [], h => by cases h
  | x :: xs, h => by
    cases hm : minByPriority xs with
    | none =>
      have h' : some x = some g := by rw [minByPriority, hm] at h; exact h
      exact ⟨[], xs, by rw [Option.some_inj.mp h', List.nil_append], by intro y hy; cases hy⟩
    | some m =>
      have h' : (if x.priority.num ≤ m.priority.num then some x else some m) = some g := by
        rw [minByPriority, hm] at h; exact h
      by_cases hle : x.priority.num ≤ m.priority.num
      · rw [if_pos hle] at h'
        exact ⟨[], xs, by rw [Option.some_inj.mp h', List.nil_append], by intro y hy; cases hy⟩
      · rw [if_neg hle] at h'
        have hx : m = g := Option.some_inj.mp h'
        subst hx
        obtain ⟨l₁, l₂, hsplit, hgt⟩ := minByPriority_first hm
        refine ⟨x :: l₁, l₂, by rw [hsplit, List.cons_append], ?_⟩
        intro y hy
        rcases List.mem_cons.mp hy with rfl | hy
        · exact Nat.lt_of_not_le hle
        · exact hgt y hy

theorem minByPriority_unique {l : List Goal} {g : Goal} (hg : g ∈ l)
    (hlt : ∀ x ∈ l, x ≠ g → g.priority.num < x.priority.num) :
    minByPriority l = some g := by
  cases h : minByPriority l with
  | none =>
    rw [minByPriority_eq_none.mp h] at hg
    cases hg
  | some m =>
    by_cases hmg : m = g
    · rw [hmg]
    · have h1 : m.priority.num ≤ g.priority.num := minByPriority_le h g hg
      have h2 : g.priority.num < m.priority.num := hlt m (minByPriority_mem h) hmg
      omega

theorem find?_of_nodup_ids {g : Goal} :
    ∀ {l : List Goal}, (l.map (fun x => x.id)).Nodup → g ∈ l →
      l.find? (fun h => h.id == g.id) = some g
  | [], _, hg => by cases hg
  | x :: xs, hnd, hg => by
    rw [List.map_cons, List.nodup_cons] at hnd
    rcases List.mem_cons.mp hg with rfl | hg
    · exact List.find?_cons_of_pos (p := fun (h : Goal) => h.id == g.id) _ (by simp)
    · have hne : (x.id == g.id) = false := by
        refine beq_eq_false_iff_ne.mpr ?_
        intro hEq
        exact hnd.1 (hEq ▸ List.mem_map.mpr ⟨g, hg, rfl⟩)
      rw [List.find?_cons_of_neg (p := fun (h : Goal) => h.id == g.id) _ (by simp [hne]),
        find?_of_nodup_ids hnd.2 hg]

/-! ## Invariant machinery for the goal planner -/

theorem pauseF_id (g : Goal) : (pauseF g).id = g.id := by
  unfold pauseF; split <;> rfl

theorem pauseF_status_ne (g : Goal) : (pauseF g).status ≠ .active := by
  unfold pauseF
  by_cases h : (g.status == GoalStatus.active) = true
  · rw [if_pos h]; intro hcon; cases hcon
  · rw [if_neg h]; simpa using h

theorem setStatus_status_ne {s : GoalStatus} (hs : s ≠ .active) (g : Goal) :
    (setStatus s g).status ≠ .active := hs

theorem countActive_updateFirst_eq_zero {f : Goal → Goal}
    (hf : ∀ g, (f g).status ≠ .active) (i : Nat) :
    ∀ l : List Goal, countActive l ≤ 1 →
      (∀ g ∈ l, g.status = .active → g.id = i ∧ l.find? (fun h => h.id == i) = some g) →
      countActive (updateFirst (fun g => g.id == i) f l) = 0
  | [], _, _ => rfl
  | x :: xs, hc, htr => by
    by_cases hx : (x.id == i) = true
    · rw [updateFirst, if_pos hx]
      have hxs : countActive xs = 0 := by
        by_contra hne
        obtain ⟨g, hgmem, hgact⟩ := List.countP_pos_iff.mp (Nat.pos_of_ne_zero hne)
        have hgact' : g.status = .active := by simpa using hgact
        obtain ⟨-, hfind⟩ := htr g (List.mem_cons_of_mem _ hgmem) hgact'
        rw [List.find?_cons_of_pos (p := fun (h : Goal) => h.id == i) _ hx] at hfind
        have hxg : x = g := Option.some_inj.mp hfind
        have hxact : x.status = .active := hxg ▸ hgact'
        have h1 : 0 < countActive xs :=
          List.countP_pos_iff.mpr ⟨g, hgmem, hgact⟩
        have h2 : countActive (x :: xs) = countActive xs + 1 := by
          rw [countActive_cons, if_pos hxact]
        omega
      rw [countActive_cons, hxs, if_neg (hf x)]
    · rw [updateFirst, if_neg hx]
      have hxn : x.status ≠ .active := by
        intro hxa
        obtain ⟨hgi, -⟩ := htr x (List.mem_cons_self _ _) hxa
        exact hx (by simp [hgi])
      have hc' : countActive xs ≤ 1 := by
        rw [countActive_cons, if_neg hxn] at hc; omega
      have htr' : ∀ g ∈ xs, g.status = .active →
          g.id = i ∧ xs.find? (fun h => h.id == i) = some g := by
        intro g hg hga
        obtain ⟨h1, h2⟩ := htr g (List.mem_cons_of_mem _ hg) hga
        refine ⟨h1, ?_⟩
        rwa [List.find?_cons_of_neg (p := fun (h : Goal) => h.id == i) _ hx] at h2
      rw [countActive_cons, if_neg hxn,
        countActive_updateFirst_eq_zero hf i xs hc' htr']

theorem countActive_activate (i : Nat) :
    ∀ l : List Goal, countActive l = 0 → (∃ g ∈ l, g.id = i) →
      countActive (updateFirst (fun g => g.id == i) activateF l) = 1 ∧
      ∀ g' ∈ updateFirst (fun g => g.id == i) activateF l, g'.status = .active →
        g'.id = i ∧
          (updateFirst (fun g => g.id == i) activateF l).find? (fun h => h.id == i) = some g'
  | [], _, hex => by
    obtain ⟨g, hg, -⟩ := hex
    cases hg
  | x :: xs, h0, hex => by
    have hxn : x.status ≠ .active := by
      rw [countActive_cons] at h0
      intro hxa
      rw [if_pos hxa] at h0
      omega
    have hxs : countActive xs = 0 := by
      rw [countActive_cons, if_neg hxn] at h0
      omega
    by_cases hx : (x.id == i) = true
    · rw [updateFirst, if_pos hx]
      constructor
      · rw [countActive_cons, hxs]; simp [activateF]
      · intro g' hg' hga'
        rcases List.mem_cons.mp hg' with rfl | hg'
        · refine ⟨by simpa using hx, ?_⟩
          exact List.find?_cons_of_pos (p := fun (h : Goal) => h.id == i) _ (by simpa using hx)
        · exact absurd hga' (countActive_eq_zero.mp hxs g' hg')
    · rw [updateFirst, if_neg hx]
      have hex' : ∃ g ∈ xs, g.id = i := by
        obtain ⟨g, hg, hgi⟩ := hex
        rcases List.mem_cons.mp hg with rfl | hg
        · exact absurd (by simp [hgi]) hx
        · exact ⟨g, hg, hgi⟩
      obtain ⟨ih1, ih2⟩ := countActive_activate i xs hxs hex'
      constructor
      · rw [countActive_cons, if_neg hxn, ih1]
      · intro g' hg' hga'
        rcases List.mem_cons.mp hg' with rfl | hg'
        · exact absurd hga' hxn
        · obtain ⟨h1, h2⟩ := ih2 g' hg' hga'
          refine ⟨h1, ?_⟩
          rw [List.find?_cons_of_neg (p := fun (h : Goal) => h.id == i) _ hx]
          exact h2

theorem no_active_of_ref_none {pl : GoalPlanner} (hInv : pl.Inv)
    (h : pl.active_goal = none) : countActive pl.goals = 0 := by
  refine countActive_eq_zero.mpr ?_
  intro g hg hga
  obtain ⟨hid, -⟩ := hInv.2 g hg hga
  rw [h] at hid
  cases hid

theorem tracked_at {pl : GoalPlanner} (hInv : pl.Inv) {i : Nat}
    (href : pl.active_goal = some i) :
    ∀ g ∈ pl.goals, g.status = .active →
      g.id = i ∧ pl.goals.find? (fun h => h.id == i) = some g := by
  intro g hg hga
  obtain ⟨hid, hfind⟩ := hInv.2 g hg hga
  rw [href] at hid
  have hgi : g.id = i := (Option.some_inj.mp hid).symm
  exact ⟨hgi, hgi ▸ hfind⟩

theorem pauseStep_goals_count {pl : GoalPlanner} (hInv : pl.Inv) :
    countActive pl.pauseStep.goals = 0 := by
  cases href : pl.active_goal with
  | none =>
    have : pl.pauseStep = pl := by rw [GoalPlanner.pauseStep, href]
    rw [this]
    exact no_active_of_ref_none hInv href
  | some i =>
    have : pl.pauseStep.goals = updateFirst (fun g => g.id == i) pauseF pl.goals := by
      rw [GoalPlanner.pauseStep, href]
    rw [this]
    exact countActive_updateFirst_eq_zero pauseF_status_ne i pl.goals hInv.1 (tracked_at hInv href)

theorem inv_of_count_zero {pl : GoalPlanner} (h0 : countActive pl.goals = 0) : pl.Inv := by
  refine ⟨by omega, ?_⟩
  intro g hg hga
  exact absurd hga (countActive_eq_zero.mp h0 g hg)

theorem inv_pick_next {pl : GoalPlanner} (hInv : pl.Inv) : (pl.pick_next.1).Inv := by
  have h0 : countActive pl.pauseStep.goals = 0 := pauseStep_goals_count hInv
  cases hmin : minByPriority (pl.pauseStep.goals.filter selectable) with
  | none =>
    have hfst : pl.pick_next.1 = pl.pauseStep := by
      rw [GoalPlanner.pick_next, hmin]; rfl
    rw [hfst]
    exact inv_of_count_zero h0
  | some gsel =>
    have hfst : pl.pick_next.1 =
        { pl.pauseStep with
          goals := updateFirst (fun g => g.id == gsel.id) activateF pl.pauseStep.goals,
          active_goal := some gsel.id } := by
      rw [GoalPlanner.pick_next, hmin]; rfl
    have hex : ∃ g ∈ pl.pauseStep.goals, g.id = gsel.id :=
      ⟨gsel, (List.mem_filter.mp (minByPriority_mem hmin)).1, rfl⟩
    obtain ⟨hcount, htr⟩ := countActive_activate gsel.id pl.pauseStep.goals h0 hex
    rw [hfst]
    refine ⟨by simpa using Nat.le_of_eq hcount, ?_⟩
    intro g' hg' hga'
    obtain ⟨h1, h2⟩ := htr g' hg' hga'
    exact ⟨by rw [h1], by rw [h1]; exact h2⟩

theorem inv_add_goal {pl : GoalPlanner} {g : Goal} (hInv : pl.Inv)
    (hp : g.status = .pending) : (pl.add_goal g).Inv := by
  constructor
  · rw [GoalPlanner.add_goal]
    have : countActive (pl.goals ++ [g]) = countActive pl.goals := by
      rw [countActive_append, countActive_cons, countActive_nil,
        if_neg (by rw [hp]; intro h; cases h)]
      omega
    simpa [this] using hInv.1
  · intro h hmem hact
    rcases List.mem_append.mp hmem with hmem | hmem
    · obtain ⟨h1, h2⟩ := hInv.2 h hmem hact
      refine ⟨h1, ?_⟩
      show (pl.goals ++ [g]).find? (fun x => x.id == h.id) = some h
      rw [List.find?_append, h2]
      rfl
    · have : h = g := by simpa using hmem
      rw [this, hp] at hact
      cases hact

theorem inv_complete {pl : GoalPlanner} (hInv : pl.Inv) : pl.complete_current.Inv := by
  cases href : pl.active_goal with
  | none =>
    have : pl.complete_current = pl := by rw [GoalPlanner.complete_current, href]
    rw [this]; exact hInv
  | some i =>
    cases hfind : pl.goals.find? (fun g => g.id == i) with
    | none =>
      have hres : pl.complete_current = { pl with active_goal := none } := by
        simp only [GoalPlanner.complete_current, href, hfind]
      rw [hres]
      refine inv_of_count_zero ?_
      show countActive pl.goals = 0
      refine countActive_eq_zero.mpr ?_
      intro g hg hga
      obtain ⟨hgi, hgf⟩ := tracked_at hInv href g hg hga
      rw [hgf] at hfind
      cases hfind
    | some x =>
      have hres : pl.complete_current =
          { pl with
            goals := updateFirst (fun g => g.id == i) (setStatus .completed) pl.goals,
            completed_count := pl.completed_count + 1,
            active_goal := none } := by
        simp only [GoalPlanner.complete_current, href, hfind]
      rw [hres]
      refine inv_of_count_zero ?_
      show countActive (updateFirst (fun g => g.id == i) (setStatus .completed) pl.goals) = 0
      exact countActive_updateFirst_eq_zero (setStatus_status_ne (by intro h; cases h)) i
        pl.goals hInv.1 (tracked_at hInv href)

theorem inv_fail {pl : GoalPlanner} (hInv : pl.Inv) : pl.fail_current.Inv := by
  cases href : pl.active_goal with
  | none =>
    have hres : pl.fail_current = { pl with active_goal := none } := by
      rw [GoalPlanner.fail_current, href]
    rw [hres]
    refine inv_of_count_zero ?_
    show countActive pl.goals = 0
    exact no_active_of_ref_none hInv href
  | some i =>
    cases hfind : pl.goals.find? (fun g => g.id == i) with
    | none =>
      have hres : pl.fail_current = { pl with active_goal := none } := by
        simp only [GoalPlanner.fail_current, href, hfind]
      rw [hres]
      refine inv_of_count_zero ?_
      show countActive pl.goals = 0
      refine countActive_eq_zero.mpr ?_
      intro g hg hga
      obtain ⟨hgi, hgf⟩ := tracked_at hInv href g hg hga
      rw [hgf] at hfind
      cases hfind
    | some x =>
      by_cases hatt : x.max_attempts ≤ x.attempts
      · have hres : pl.fail_current =
            { pl with
              goals := updateFirst (fun h => h.id == i) (setStatus .failed) pl.goals,
              failed_count := pl.failed_count + 1,
              active_goal := none } := by
          simp only [GoalPlanner.fail_current, href, hfind, if_pos hatt]
        rw [hres]
        refine inv_of_count_zero ?_
        show countActive (updateFirst (fun h => h.id == i) (setStatus .failed) pl.goals) = 0
        exact countActive_updateFirst_eq_zero (setStatus_status_ne (by intro h; cases h)) i
          pl.goals hInv.1 (tracked_at hInv href)
      · have hres : pl.fail_current =
            { pl with
              goals := updateFirst (fun h => h.id == i) (setStatus .paused) pl.goals,
              active_goal := none } := by
          simp only [GoalPlanner.fail_current, href, hfind, if_neg hatt]
        rw [hres]
        refine inv_of_count_zero ?_
        show countActive (updateFirst (fun h => h.id == i) (setStatus .paused) pl.goals) = 0
        exact countActive_updateFirst_eq_zero (setStatus_status_ne (by intro h; cases h)) i
          pl.goals hInv.1 (tracked_at hInv href)

theorem emergencyGoal_id (id : Nat) (name description : String) (now : Int) :
    (emergencyGoal id name description now).id = id := rfl

theorem emergencyGoal_status (id : Nat) (name description : String) (now : Int) :
    (emergencyGoal id name description now).status = .active := rfl

theorem inv_emergency {pl : GoalPlanner} {id : Nat} {name description : String} {t : Int}
    (hInv : pl.Inv) (hfresh : ∀ g ∈ pl.goals, g.id ≠ id)
    (href : pl.active_goal ≠ some id) :
    (pl.emergency id name description t).Inv := by
  set eg := emergencyGoal id name description t with heg
  have hegid : eg.id = id := rfl
  cases haid : pl.active_goal with
  | none =>
    have hres : pl.emergency id name description t =
        { pl with goals := pl.goals ++ [eg], active_goal := some id } := by
      rw [GoalPlanner.emergency, haid]
    have h0 : countActive pl.goals = 0 := no_active_of_ref_none hInv haid
    rw [hres]
    constructor
    · rw [countActive_append, h0, countActive_cons, countActive_nil]
      simp [heg, emergencyGoal, Goal.new]
    · intro g' hg' hga'
      rcases List.mem_append.mp hg' with hg' | hg'
      · exact absurd hga' (countActive_eq_zero.mp h0 g' hg')
      · have hge : g' = eg := by simpa using hg'
        subst hge
        refine ⟨rfl, ?_⟩
        show (pl.goals ++ [eg]).find? (fun h => h.id == eg.id) = some eg
        rw [List.find?_append, List.find?_eq_none.mpr ?hnone]
        case hnone =>
          intro x hx
          simp [hegid, hfresh x hx]
        rw [List.find?_cons_of_pos (p := fun (h : Goal) => h.id == eg.id) _ (by simp)]
        rfl
  | some aid =>
    have haidne : aid ≠ id := by
      intro hEq
      exact href (by rw [haid, hEq])
    have hres : pl.emergency id name description t =
        { pl with
          goals := updateFirst (fun g => g.id == aid) pauseF (pl.goals ++ [eg]),
          active_goal := some id } := by
      rw [GoalPlanner.emergency, haid]
    have hsplit : updateFirst (fun g => g.id == aid) pauseF (pl.goals ++ [eg]) =
        updateFirst (fun g => g.id == aid) pauseF pl.goals ++ [eg] := by
      refine updateFirst_append_right ?_ pl.goals
      intro g hg
      have : g = eg := by simpa using hg
      rw [this]
      exact beq_eq_false_iff_ne.mpr (by rw [hegid]; exact fun h => haidne h.symm)
    have h0 : countActive (updateFirst (fun g => g.id == aid) pauseF pl.goals) = 0 :=
      countActive_updateFirst_eq_zero pauseF_status_ne aid pl.goals hInv.1
        (tracked_at hInv haid)
    rw [hres]
    constructor
    · rw [hsplit, countActive_append, h0, countActive_cons, countActive_nil]
      simp [heg, emergencyGoal, Goal.new]
    · intro g' hg' hga'
      rw [hsplit] at hg'
      rcases List.mem_append.mp hg' with hg' | hg'
      · exact absurd hga' (countActive_eq_zero.mp h0 g' hg')
      · have hge : g' = eg := by simpa using hg'
        subst hge
        refine ⟨rfl, ?_⟩
        show (updateFirst (fun g => g.id == aid) pauseF (pl.goals ++ [eg])).find?
          (fun h => h.id == eg.id) = some eg
        rw [hsplit, List.find?_append, List.find?_eq_none.mpr ?hnone2]
        case hnone2 =>
          intro x hx
          rcases mem_updateFirst hx with hx | ⟨g, hg, -, hfg⟩
          · simp [hegid, hfresh x hx]
          · rw [hfg]
            simp [hegid, pauseF_id, hfresh g hg]
        rw [List.find?_cons_of_pos (p := fun (h : Goal) => h.id == eg.id) _ (by simp)]
        rfl

theorem inv_step {pl : GoalPlanner} {op : GPOp} (hInv : pl.Inv) (hok : op.ok pl) :
    (op.step pl).Inv := by
  cases op with
  | submit g => exact inv_add_goal hInv hok
  | select_next => exact inv_pick_next hInv
  | preempt id name description t => exact inv_emergency hInv hok.1 hok.2
  | complete => exact inv_complete hInv
  | fail => exact inv_fail hInv

theorem inv_run {pl : GoalPlanner} {ops : List GPOp} (hInv : pl.Inv)
    (hok : GPOp.okRun pl ops) : (GPOp.run pl ops).Inv := by
  induction ops generalizing pl with
  | nil => exact hInv
  | cons op ops ih =>
    exact ih (inv_step hInv hok.1) hok.2

theorem pauseF_attempts (g : Goal) : (pauseF g).attempts = g.attempts := by
  unfold pauseF; split <;> rfl

theorem pauseF_priority (g : Goal) : (pauseF g).priority = g.priority := by
  unfold pauseF; split <;> rfl

theorem find?_append_left {p : Goal → Bool} {l l' : List Goal} {x : Goal}
    (h : l.find? p = some x) : (l ++ l').find? p = some x := by
  rw [List.find?_append, h]; rfl

/-- After emergency, the backlog is the (possibly paused) old backlog
followed by the new emergency goal; no old goal carries the fresh id, old
priorities are unchanged, and old ids are unchanged in order. -/
theorem emergency_goals_split (pl : GoalPlanner) (id : Nat) (name description : String)
    (t : Int) (hfresh : ∀ g ∈ pl.goals, g.id ≠ id) (href : pl.active_goal ≠ some id) :
    ∃ L, (pl.emergency id name description t).goals =
        L ++ [emergencyGoal id name description t] ∧ (∀ h ∈ L, h.id ≠ id) ∧
        (∀ h ∈ L, ∃ g ∈ pl.goals, h.priority = g.priority) ∧
        L.map (fun g => g.id) = pl.goals.map (fun g => g.id) := by
  cases haid : pl.active_goal with
  | none =>
    refine ⟨pl.goals, ?_, hfresh, fun h hm => ⟨h, hm, rfl⟩, rfl⟩
    rw [GoalPlanner.emergency, haid]
  | some aid =>
    have haidne : aid ≠ id := fun hEq => href (by rw [haid, hEq])
    refine ⟨updateFirst (fun g => g.id == aid) pauseF pl.goals, ?_, ?_, ?_, ?_⟩
    · have h1 : (pl.emergency id name description t).goals =
          updateFirst (fun g => g.id == aid) pauseF
            (pl.goals ++ [emergencyGoal id name description t]) := by
        rw [GoalPlanner.emergency, haid]
      rw [h1]
      refine updateFirst_append_right ?_ pl.goals
      intro g hg
      have : g = emergencyGoal id name description t := by simpa using hg
      rw [this]
      exact beq_eq_false_iff_ne.mpr (fun h => haidne h.symm)
    · intro h hmem
      rcases mem_updateFirst hmem with hmem | ⟨g, hg, -, hfg⟩
      · exact hfresh h hmem
      · rw [hfg, pauseF_id]
        exact hfresh g hg
    · intro h hmem
      rcases mem_updateFirst hmem with hmem | ⟨g, hg, -, hfg⟩
      · exact ⟨h, hmem, rfl⟩
      · exact ⟨g, hg, by rw [hfg, pauseF_priority]⟩
    · exact map_updateFirst (fun g => g.id) pauseF_id pl.goals

theorem priority_num_pos {p : GoalPriority} (h : p ≠ .critical) : 0 < p.num := by
  cases p <;> simp [GoalPriority.num] at h ⊢

theorem find?_append_cons {p : Goal → Bool} {l₁ : List Goal} {x : Goal} (l₂ : List Goal)
    (h₁ : ∀ h ∈ l₁, p h = false) (hx : p x = true) :
    (l₁ ++ x :: l₂).find? p = some x := by
  rw [List.find?_append, List.find?_eq_none.mpr (fun y hy => by simp [h₁ y hy]),
    List.find?_cons_of_pos _ hx]
  rfl

theorem pauseStep_ids (pl : GoalPlanner) :
    pl.pauseStep.goals.map (fun g => g.id) = pl.goals.map (fun g => g.id) := by
  cases href : pl.active_goal with
  | none => rw [GoalPlanner.pauseStep, href]
  | some i =>
    have : pl.pauseStep.goals = updateFirst (fun g => g.id == i) pauseF pl.goals := by
      rw [GoalPlanner.pauseStep, href]
    rw [this, map_updateFirst (fun g => g.id) pauseF_id]

theorem pauseStep_active_goal (pl : GoalPlanner) :
    pl.pauseStep.active_goal = pl.active_goal := by
  cases href : pl.active_goal with
  | none => rw [GoalPlanner.pauseStep, href]; exact href
  | some i => rw [GoalPlanner.pauseStep, href]

/-- If the referenced goal is the tracked Active goal, the pause step
demotes exactly it to Paused. -/
theorem updateFirst_pause_find {l : List Goal} {g0 : Goal}
    (hfind : l.find? (fun h => h.id == g0.id) = some g0) (hact : g0.status = .active) :
    (updateFirst (fun g => g.id == g0.id) pauseF l).find? (fun h => h.id == g0.id) =
      some { g0 with status := .paused } := by
  obtain ⟨hp, l₁, l₂, hsplit, hl₁⟩ := List.find?_eq_some.mp hfind
  have hl₁f : ∀ h ∈ l₁, ((fun g => g.id == g0.id) h) = false := by
    intro h hm
    have := hl₁ h hm
    simpa using this
  rw [hsplit, updateFirst_decomp l₂ hl₁f hp]
  have hpause : pauseF g0 = { g0 with status := .paused } := by
    unfold pauseF
    rw [if_pos (by simp [hact])]
  rw [← hpause]
  exact find?_append_cons l₂ hl₁f (by rw [pauseF_id]; simp)

/-- The selected goal of pick_next: with distinct ids and the tracking
invariant, the first minimal-priority candidate is marked Active with one
more attempt, referenced, and returned. -/
theorem pick_next_selects {pl : GoalPlanner}
    (hnd : (pl.goals.map (fun g => g.id)).Nodup) {gsel : Goal}
    (hmin : minByPriority (pl.pauseStep.goals.filter selectable) = some gsel) :
    pl.pick_next.2 = some (activateF gsel) ∧
    pl.pick_next.1.active_goal = some gsel.id ∧
    pl.pick_next.1.goals.find? (fun h => h.id == gsel.id) = some (activateF gsel) := by
  have hnd1 : (pl.pauseStep.goals.map (fun g => g.id)).Nodup := by
    rw [pauseStep_ids]; exact hnd
  have hmem : gsel ∈ pl.pauseStep.goals :=
    (List.mem_filter.mp (minByPriority_mem hmin)).1
  have hfind : pl.pauseStep.goals.find? (fun h => h.id == gsel.id) = some gsel :=
    find?_of_nodup_ids hnd1 hmem
  obtain ⟨hp, l₁, l₂, hsplit, hl₁⟩ := List.find?_eq_some.mp hfind
  have hl₁f : ∀ h ∈ l₁, ((fun g => g.id == gsel.id) h) = false := by
    intro h hm
    simpa using hl₁ h hm
  have hpick : pl.pick_next =
      ({ pl.pauseStep with
          goals := updateFirst (fun g => g.id == gsel.id) activateF pl.pauseStep.goals,
          active_goal := some gsel.id },
        ({ pl.pauseStep with
          goals := updateFirst (fun g => g.id == gsel.id) activateF pl.pauseStep.goals,
          active_goal := some gsel.id } : GoalPlanner).current_goal) := by
    rw [GoalPlanner.pick_next, hmin]
    rfl
  have hupd : updateFirst (fun g => g.id == gsel.id) activateF pl.pauseStep.goals =
      l₁ ++ activateF gsel :: l₂ := by
    rw [hsplit, updateFirst_decomp l₂ hl₁f hp]
  have hcur : ({ pl.pauseStep with
      goals := updateFirst (fun g => g.id == gsel.id) activateF pl.pauseStep.goals,
      active_goal := some gsel.id } : GoalPlanner).current_goal =
      some (activateF gsel) := by
    show (updateFirst (fun g => g.id == gsel.id) activateF pl.pauseStep.goals).find?
      (fun g => g.id == gsel.id && g.is_actionable) = some (activateF gsel)
    rw [hupd]
    refine find?_append_cons l₂ ?_ ?_
    · intro h hm
      simp [hl₁f h hm]
    · show ((activateF gsel).id == gsel.id && (activateF gsel).is_actionable) = true
      simp [activateF, Goal.is_actionable]
  refine ⟨?_, ?_, ?_⟩
  · rw [hpick]; exact hcur
  · rw [hpick]
  · rw [hpick]
    show (updateFirst (fun g => g.id == gsel.id) activateF pl.pauseStep.goals).find?
      (fun h => h.id == gsel.id) = some (activateF gsel)
    rw [hupd]
    refine find?_append_cons l₂ hl₁f ?_
    show ((activateF gsel).id == gsel.id) = true
    simp [activateF]

/-- With no Pending or Paused goal after the pause step, pick_next
returns none. -/
theorem pick_next_none {pl : GoalPlanner} (hInv : pl.Inv)
    (hmin : minByPriority (pl.pauseStep.goals.filter selectable) = none) :
    pl.pick_next.2 = none := by
  have hnil : pl.pauseStep.goals.filter selectable = [] := minByPriority_eq_none.mp hmin
  have hnosel : ∀ g ∈ pl.pauseStep.goals, selectable g = false := by
    intro g hg
    have := List.filter_eq_nil_iff.mp hnil g hg
    simpa using this
  have h0 : countActive pl.pauseStep.goals = 0 := pauseStep_goals_count hInv
  have hnoact : ∀ g ∈ pl.pauseStep.goals, g.is_actionable = false := by
    intro g hg
    have hs := hnosel g hg
    have ha := countActive_eq_zero.mp h0 g hg
    unfold selectable at hs
    unfold Goal.is_actionable
    cases hst : g.status <;> simp_all [hst]
  have hpick : pl.pick_next = (pl.pauseStep, pl.pauseStep.current_goal) := by
    rw [GoalPlanner.pick_next, hmin]
    rfl
  rw [hpick]
  show pl.pauseStep.current_goal = none
  cases href : pl.pauseStep.active_goal with
  | none =>
    have hcur : pl.pauseStep.current_goal =
        minByPriority (pl.pauseStep.goals.filter (fun g => g.is_actionable)) := by
      rw [GoalPlanner.current_goal, href]
    rw [hcur, minByPriority_eq_none, List.filter_eq_nil_iff]
    intro g hg
    simp [hnoact g hg]
  | some i =>
    have hcur : pl.pauseStep.current_goal =
        pl.pauseStep.goals.find? (fun g => g.id == i && g.is_actionable) := by
      rw [GoalPlanner.current_goal, href]
    rw [hcur, List.find?_eq_none]
    intro g hg
    simp [hnoact g hg]

/-- C4: select_next pauses the tracked Active goal first; among the goals
then Pending or Paused it selects the first one with the numerically
lowest priority value (earliest-inserted wins ties), marks it Active with
one more attempt and references it, and returns none exactly when no
Pending or Paused goal exists; in particular from goals with priorities
[Medium, Critical, Low] submitted in that order, the Critical one is
selected first. -/
theorem select_next_lowest_priority_first :
    (∀ pl : GoalPlanner, pl.Inv → (pl.goals.map (fun g => g.id)).Nodup →
      (∀ g0 ∈ pl.goals, g0.status = .active →
        pl.pauseStep.goals.find? (fun h => h.id == g0.id) =
          some { g0 with status := .paused }) ∧
      (pl.pick_next.2 = none ↔ pl.pauseStep.goals.filter selectable = []) ∧
      (∀ gsel : Goal, minByPriority (pl.pauseStep.goals.filter selectable) = some gsel →
        gsel ∈ pl.pauseStep.goals ∧ selectable gsel = true ∧
        (∀ h ∈ pl.pauseStep.goals, selectable h = true →
          gsel.priority.num ≤ h.priority.num) ∧
        (∃ l₁ l₂, pl.pauseStep.goals.filter selectable = l₁ ++ gsel :: l₂ ∧
          ∀ h ∈ l₁, gsel.priority.num < h.priority.num) ∧
        pl.pick_next.2 = some (activateF gsel) ∧
        pl.pick_next.1.active_goal = some gsel.id ∧
        pl.pick_next.1.goals.find? (fun h => h.id == gsel.id) = some (activateF gsel))) ∧
    (mclPlanner.pick_next.2).map (fun g => g.priority) = some .critical := by
  constructor
  · intro pl hInv hnd
    refine ⟨?_, ?_, ?_⟩
    · intro g0 hg0 hact
      obtain ⟨hid, hfind⟩ := hInv.2 g0 hg0 hact
      have hps : pl.pauseStep.goals =
          updateFirst (fun g => g.id == g0.id) pauseF pl.goals := by
        rw [GoalPlanner.pauseStep, hid]
      rw [hps]
      exact updateFirst_pause_find hfind hact
    · constructor
      · intro hnone
        cases hmin : minByPriority (pl.pauseStep.goals.filter selectable) with
        | none => exact minByPriority_eq_none.mp hmin
        | some gsel =>
          have := (pick_next_selects hnd hmin).1
          rw [hnone] at this
          cases this
      · intro hnil
        exact pick_next_none hInv (by rw [minByPriority_eq_none]; exact hnil)
    · intro gsel hmin
      obtain ⟨hmem, hsel⟩ := List.mem_filter.mp (minByPriority_mem hmin)
      obtain ⟨hsome, href, hfind⟩ := pick_next_selects hnd hmin
      refine ⟨hmem, hsel, ?_, ?_, hsome, href, hfind⟩
      · intro h hh hsh
        exact minByPriority_le hmin h (List.mem_filter.mpr ⟨hh, hsh⟩)
      · exact minByPriority_first hmin
  · decide

/-- Witness for C4 at the Medium, Critical, Low backlog. -/
theorem select_next_lowest_priority_first_witness :
    mclPlanner.pick_next.2 = some (activateF (mkGoal 1 .critical .pending)) ∧
    mclPlanner.pick_next.1.active_goal = some 1 :=
  have h := (select_next_lowest_priority_first.1 mclPlanner (by decide) (by decide)).2.2
    (mkGoal 1 .critical .pending) (by decide)
  ⟨h.2.2.2.2.1, h.2.2.2.2.2.1⟩

/-- C1 is refuted as stated: this planner has at most one Active goal (the
claim's precondition), yet a single select_next yields two Active goals,
because the Active goal is not the one the active-goal reference tracks. -/
theorem select_next_breaks_untracked_single_active :
    countActive c1Planner.goals ≤ 1 ∧
    ¬ countActive (GPOp.run c1Planner [GPOp.select_next]).goals ≤ 1 := by
  decide

/-- C1 (amended): the default seeded planner satisfies the tracking
invariant (every Active goal is the first goal carrying its id and is the
one referenced by active_goal, and at most one goal is Active), and from
any state satisfying that invariant, any sequence of submit (of a Pending
goal), select_next, preempt (with a fresh id, as uuids provide), complete
and fail operations leaves at most one goal Active. -/
theorem goal_planner_at_most_one_active (now : Int) (pl : GoalPlanner)
    (ops : List GPOp) (hInv : pl.Inv) (hok : GPOp.okRun pl ops) :
    (GoalPlanner.default now).Inv ∧ countActive (GPOp.run pl ops).goals ≤ 1 := by
  constructor
  · constructor
    · show countActive (seedGoals now) ≤ 1
      have h : countActive (seedGoals now) = 0 := rfl
      omega
    · intro g hg hga
      have h0 : countActive (seedGoals now) = 0 := rfl
      exact absurd hga (countActive_eq_zero.mp h0 g hg)
  · exact (inv_run hInv hok).1

/-- Witness for C1 (amended) at the seeded planner and a four-operation
sequence. -/
theorem goal_planner_at_most_one_active_witness :
    (GoalPlanner.default 0).Inv ∧
    countActive (GPOp.run (GoalPlanner.default 0)
      [GPOp.select_next, GPOp.preempt 100 "Fugir" "creeper perto" 0,
       GPOp.fail, GPOp.select_next]).goals ≤ 1 :=
  ⟨by decide,
    (goal_planner_at_most_one_active 0 (GoalPlanner.default 0)
      [GPOp.select_next, GPOp.preempt 100 "Fugir" "creeper perto" 0,
       GPOp.fail, GPOp.select_next] (by decide) (by decide)).2⟩

/-- C10: the emergency goal is created with attempts 0 and max_attempts 1;
no operation other than select_next changes the attempts counter of an
existing goal; consequently a fail_current issued right after emergency
finds attempts (0) below max_attempts (1), so the emergency goal becomes
Paused — not Failed — and the failed counter is unchanged, while the
active reference is cleared. -/
theorem emergency_goal_fail_is_paused :
    (∀ (id : Nat) (name description : String) (t : Int),
      (emergencyGoal id name description t).attempts = 0 ∧
      (emergencyGoal id name description t).max_attempts = 1) ∧
    (∀ (pl : GoalPlanner) (op : GPOp) (i : Nat),
      op ≠ GPOp.select_next → op.ok pl → (attemptsOf pl i).isSome →
      attemptsOf (op.step pl) i = attemptsOf pl i) ∧
    (∀ (pl : GoalPlanner) (id : Nat) (name description : String) (t : Int),
      (∀ g ∈ pl.goals, g.id ≠ id) →
      pl.active_goal ≠ some id →
      (pl.emergency id name description t).fail_current.goals.find?
          (fun g => g.id == id) =
        some (setStatus .paused (emergencyGoal id name description t)) ∧
      (pl.emergency id name description t).fail_current.failed_count =
        (pl.emergency id name description t).failed_count ∧
      (pl.emergency id name description t).fail_current.active_goal = none) := by
  refine ⟨fun id name description t => ⟨rfl, rfl⟩, ?_, ?_⟩
  · intro pl op i hne hok hsome
    cases hy : pl.goals.find? (fun g => g.id == i) with
    | none =>
      rw [attemptsOf, hy] at hsome
      cases hsome
    | some y =>
    cases op with
    | select_next => exact absurd rfl hne
    | submit g =>
      show attemptsOf (pl.add_goal g) i = attemptsOf pl i
      simp only [attemptsOf, GoalPlanner.add_goal]
      rw [find?_append_left hy, hy]
    | preempt id' name description t =>
      have hyid : y.id = i := by simpa using List.find?_some hy
      have hymem : y ∈ pl.goals := List.mem_of_find?_eq_some hy
      show attemptsOf (pl.emergency id' name description t) i = attemptsOf pl i
      simp only [attemptsOf]
      have hy1 : (pl.goals ++ [emergencyGoal id' name description t]).find?
          (fun g => g.id == i) = some y := find?_append_left hy
      cases haid : pl.active_goal with
      | none =>
        have hgl : (pl.emergency id' name description t).goals =
            pl.goals ++ [emergencyGoal id' name description t] := by
          rw [GoalPlanner.emergency, haid]
        rw [hgl, hy1, hy]
      | some aid =>
        have hgl : (pl.emergency id' name description t).goals =
            updateFirst (fun g => g.id == aid) pauseF
              (pl.goals ++ [emergencyGoal id' name description t]) := by
          rw [GoalPlanner.emergency, haid]
        rw [hgl, find?_attempts_updateFirst i pauseF_id pauseF_attempts, hy1, hy]
    | complete =>
      show attemptsOf pl.complete_current i = attemptsOf pl i
      cases href : pl.active_goal with
      | none => rw [GoalPlanner.complete_current, href]
      | some j =>
        cases hfind : pl.goals.find? (fun g => g.id == j) with
        | none =>
          have hgl : pl.complete_current = { pl with active_goal := none } := by
            simp only [GoalPlanner.complete_current, href, hfind]
          rw [hgl]; rfl
        | some x =>
          have hgl : pl.complete_current.goals =
              updateFirst (fun g => g.id == j) (setStatus .completed) pl.goals := by
            simp only [GoalPlanner.complete_current, href, hfind]
          simp only [attemptsOf]
          rw [hgl, find?_attempts_updateFirst (f := setStatus .completed) i
            (fun g => rfl) (fun g => rfl)]
    | fail =>
      show attemptsOf pl.fail_current i = attemptsOf pl i
      cases href : pl.active_goal with
      | none =>
        have hgl : pl.fail_current = { pl with active_goal := none } := by
          rw [GoalPlanner.fail_current, href]
        rw [hgl]; rfl
      | some j =>
        cases hfind : pl.goals.find? (fun g => g.id == j) with
        | none =>
          have hgl : pl.fail_current = { pl with active_goal := none } := by
            simp only [GoalPlanner.fail_current, href, hfind]
          rw [hgl]; rfl
        | some x =>
          by_cases hatt : x.max_attempts ≤ x.attempts
          · have hgl : pl.fail_current.goals =
                updateFirst (fun h => h.id == j) (setStatus .failed) pl.goals := by
              simp only [GoalPlanner.fail_current, href, hfind, if_pos hatt]
            simp only [attemptsOf]
            rw [hgl, find?_attempts_updateFirst (f := setStatus .failed) i
              (fun g => rfl) (fun g => rfl)]
          · have hgl : pl.fail_current.goals =
                updateFirst (fun h => h.id == j) (setStatus .paused) pl.goals := by
              simp only [GoalPlanner.fail_current, href, hfind, if_neg hatt]
            simp only [attemptsOf]
            rw [hgl, find?_attempts_updateFirst (f := setStatus .paused) i
              (fun g => rfl) (fun g => rfl)]
  · intro pl id name description t hfresh href
    obtain ⟨L, hLsplit, hLid, -, -⟩ := emergency_goals_split pl id name description t hfresh href
    have hLfalse : ∀ h ∈ L, ((fun g => g.id == id) h) = false := by
      intro h hm
      exact beq_eq_false_iff_ne.mpr (hLid h hm)
    have hrefpl1 : (pl.emergency id name description t).active_goal = some id := rfl
    have hfind1 : (pl.emergency id name description t).goals.find?
        (fun g => g.id == id) = some (emergencyGoal id name description t) := by
      rw [hLsplit, List.find?_append, List.find?_eq_none.mpr ?hn]
      case hn => intro x hx; simp [hLfalse x hx]
      rw [List.find?_cons_of_pos (p := fun (g : Goal) => g.id == id) _ (by simp [emergencyGoal, Goal.new])]
      rfl
    have hnoatt : ¬ (emergencyGoal id name description t).max_attempts ≤
        (emergencyGoal id name description t).attempts := by
      show ¬ (1 ≤ 0); omega
    have hres : (pl.emergency id name description t).fail_current =
        { pl.emergency id name description t with
          goals := updateFirst (fun h => h.id == id) (setStatus .paused)
            (pl.emergency id name description t).goals,
          active_goal := none } := by
      simp only [GoalPlanner.fail_current, hrefpl1, hfind1, if_neg hnoatt]
    refine ⟨?_, ?_, ?_⟩
    · rw [hres]
      show (updateFirst (fun h => h.id == id) (setStatus .paused)
        (pl.emergency id name description t).goals).find? (fun g => g.id == id) = _
      rw [hLsplit, updateFirst_decomp [] hLfalse (by simp [emergencyGoal, Goal.new]),
        List.find?_append, List.find?_eq_none.mpr ?hn2]
      case hn2 => intro x hx; simp [hLfalse x hx]
      rw [List.find?_cons_of_pos (p := fun (g : Goal) => g.id == id) _ (by simp [setStatus, emergencyGoal, Goal.new])]
      rfl
    · rw [hres]
    · rw [hres]

/-- C5 is refuted in its last clause: with a Low goal Active, a preempt
makes the emergency goal (id 1) Active, yet the select_next that follows
selects the emergency goal again — pick_next pauses it first and then it
wins the lowest-priority-value selection — incrementing its attempts. -/
theorem select_next_reselects_emergency :
    (mkGoal 0 .low .active) ∈ c5Planner.goals ∧
    (mkGoal 0 .low .active).status = .active ∧
    ((c5Planner.emergency 1 "Fugir" "creeper perto" 0).pick_next.2).map
      (fun g => g.id) = some 1 ∧
    ((c5Planner.emergency 1 "Fugir" "creeper perto" 0).pick_next.2).map
      (fun g => g.attempts) = some 1 := by
  decide

/-- C5 (amended): after preempt the previously Active goal is Paused and
the emergency goal is Active and referenced immediately; but a
select_next call made afterwards first pauses the emergency goal and then
runs the normal selection over all Pending and Paused goals, emergency
goal included — when no other goal has Critical priority it selects the
emergency goal again, returning it re-activated with one attempt. -/
theorem preempt_then_select_next (pl : GoalPlanner) (id : Nat)
    (name description : String) (t : Int) (hInv : pl.Inv)
    (hnd : (pl.goals.map (fun g => g.id)).Nodup)
    (hfresh : ∀ g ∈ pl.goals, g.id ≠ id) (href : pl.active_goal ≠ some id) :
    (∀ g0 ∈ pl.goals, g0.status = .active →
      (pl.emergency id name description t).goals.find? (fun h => h.id == g0.id) =
        some { g0 with status := .paused }) ∧
    (pl.emergency id name description t).goals.find? (fun h => h.id == id) =
      some (emergencyGoal id name description t) ∧
    (pl.emergency id name description t).active_goal = some id ∧
    ((∀ g ∈ pl.goals, g.priority ≠ .critical) →
      (pl.emergency id name description t).pick_next.2 =
        some { emergencyGoal id name description t with
                status := .active, attempts := 1 }) := by
  obtain ⟨L, hsplit, hLid, hLpr, hLids⟩ :=
    emergency_goals_split pl id name description t hfresh href
  have hLfalse : ∀ h ∈ L, ((fun g => g.id == id) h) = false := by
    intro h hm
    exact beq_eq_false_iff_ne.mpr (hLid h hm)
  refine ⟨?_, ?_, rfl, ?_⟩
  · intro g0 hg0 hact
    obtain ⟨hid, hfind⟩ := hInv.2 g0 hg0 hact
    have hgl : (pl.emergency id name description t).goals =
        updateFirst (fun g => g.id == g0.id) pauseF
          (pl.goals ++ [emergencyGoal id name description t]) := by
      rw [GoalPlanner.emergency, hid]
    rw [hgl]
    exact updateFirst_pause_find (find?_append_left hfind) hact
  · rw [hsplit]
    exact find?_append_cons [] hLfalse (by simp [emergencyGoal, Goal.new])
  · intro hnc
    have href1 : (pl.emergency id name description t).active_goal = some id := rfl
    have hps : (pl.emergency id name description t).pauseStep.goals =
        L ++ [pauseF (emergencyGoal id name description t)] := by
      have h1 : (pl.emergency id name description t).pauseStep.goals =
          updateFirst (fun g => g.id == id) pauseF
            (pl.emergency id name description t).goals := by
        rw [GoalPlanner.pauseStep, href1]
      rw [h1, hsplit, updateFirst_decomp [] hLfalse (by simp [emergencyGoal, Goal.new])]
    have hcand : (pl.emergency id name description t).pauseStep.goals.filter selectable =
        L.filter selectable ++ [pauseF (emergencyGoal id name description t)] := by
      rw [hps, List.filter_append]
      rfl
    have hmin : minByPriority
        ((pl.emergency id name description t).pauseStep.goals.filter selectable) =
        some (pauseF (emergencyGoal id name description t)) := by
      apply minByPriority_unique
      · rw [hcand]
        exact List.mem_append.mpr (Or.inr (List.mem_cons_self _ _))
      · intro x hx hne
        rw [hcand] at hx
        rcases List.mem_append.mp hx with hx | hx
        · obtain ⟨hxL, -⟩ := List.mem_filter.mp hx
          obtain ⟨g, hg, hpr⟩ := hLpr x hxL
          have hxnc : x.priority ≠ .critical := by rw [hpr]; exact hnc g hg
          have h1 : 0 < x.priority.num := priority_num_pos hxnc
          have h2 : (pauseF (emergencyGoal id name description t)).priority.num = 0 := by
            rw [pauseF_priority]
            rfl
          omega
        · exact absurd (by simpa using hx) hne
    have hnd1 : ((pl.emergency id name description t).goals.map (fun g => g.id)).Nodup := by
      rw [hsplit, List.map_append, hLids]
      rw [List.nodup_append]
      refine ⟨hnd, List.nodup_singleton _, ?_⟩
      show (pl.goals.map (fun g => g.id)).Disjoint
        ([emergencyGoal id name description t].map (fun g => g.id))
      simp only [List.map_cons, List.map_nil, List.disjoint_singleton]
      intro hmem
      obtain ⟨g, hg, hgid⟩ := List.mem_map.mp hmem
      exact hfresh g hg hgid
    have hres := (pick_next_selects hnd1 hmin).1
    rw [hres]
    rfl

/-- Witness for C5 (amended) at a planner with a tracked Active Low goal. -/
theorem preempt_then_select_next_witness :
    ((c5Planner.emergency 1 "Fugir" "creeper perto" 0).goals.find?
      (fun h => h.id == 0) = some { mkGoal 0 .low .active with status := .paused }) ∧
    (c5Planner.emergency 1 "Fugir" "creeper perto" 0).pick_next.2 =
      some { emergencyGoal 1 "Fugir" "creeper perto" 0 with
              status := .active, attempts := 1 } :=
  have h := preempt_then_select_next c5Planner 1 "Fugir" "creeper perto" 0
    (by decide) (by decide) (by decide) (by decide)
  ⟨h.1 (mkGoal 0 .low .active) (by decide) (by decide), h.2.2.2 (by decide)⟩

/-- C6 is refuted: with the active-goal reference pointing at a goal
that is no longer actionable (Paused) while another goal is Pending and
actionable, current_goal returns none — it does not fall back to the
lowest-priority actionable goal as the claim states. -/
theorem current_goal_no_fallback :
    c6Planner.active_goal = some 0 ∧
    c6Planner.current_goal = none ∧
    (mkGoal 1 .low .pending) ∈ c6Planner.goals ∧
    (mkGoal 1 .low .pending).is_actionable = true := by
  decide

/-- C6 (amended): current_goal never mutates the planner (it is a pure
function of the state); when the active-goal reference is set it returns
the first goal carrying that id that is still actionable, and none when
there is no such goal — the lowest-priority fallback runs only when no
reference is set, in which case the returned goal is an actionable goal
of minimal priority value (and none is returned only when no actionable
goal exists). -/
theorem current_goal_spec :
    (∀ (pl : GoalPlanner) (i : Nat), pl.active_goal = some i →
      pl.current_goal = pl.goals.find? (fun g => g.id == i && g.is_actionable)) ∧
    (∀ pl : GoalPlanner, pl.active_goal = none →
      pl.current_goal = minByPriority (pl.goals.filter (fun g => g.is_actionable)) ∧
      (∀ g : Goal, pl.current_goal = some g → g ∈ pl.goals ∧ g.is_actionable = true ∧
        ∀ h ∈ pl.goals, h.is_actionable = true → g.priority.num ≤ h.priority.num) ∧
      (pl.current_goal = none → ∀ h ∈ pl.goals, h.is_actionable = false)) := by
  constructor
  · intro pl i href
    rw [GoalPlanner.current_goal, href]
  · intro pl href
    have hcur : pl.current_goal =
        minByPriority (pl.goals.filter (fun g => g.is_actionable)) := by
      rw [GoalPlanner.current_goal, href]
    refine ⟨hcur, ?_, ?_⟩
    · intro g hg
      rw [hcur] at hg
      obtain ⟨hmem, hact⟩ := List.mem_filter.mp (minByPriority_mem hg)
      refine ⟨hmem, hact, ?_⟩
      intro h hh hha
      exact minByPriority_le hg h (List.mem_filter.mpr ⟨hh, hha⟩)
    · intro hnone h hh
      rw [hcur, minByPriority_eq_none] at hnone
      have := List.filter_eq_nil_iff.mp hnone h hh
      simpa using this

/-- Witness for C6 (amended) at the planner with a stale reference. -/
theorem current_goal_spec_witness :
    c6Planner.current_goal =
      c6Planner.goals.find? (fun g => g.id == 0 && g.is_actionable) :=
  current_goal_spec.1 c6Planner 0 rfl

/-- Witness for C10 at a planner with a tracked Active Low goal. -/
theorem emergency_goal_fail_is_paused_witness :
    (c5Planner.emergency 1 "Fugir" "creeper" 0).fail_current.goals.find?
        (fun g => g.id == 1) = some (setStatus .paused (emergencyGoal 1 "Fugir" "creeper" 0)) ∧
    (c5Planner.emergency 1 "Fugir" "creeper" 0).fail_current.failed_count =
      (c5Planner.emergency 1 "Fugir" "creeper" 0).failed_count ∧
    (c5Planner.emergency 1 "Fugir" "creeper" 0).fail_current.active_goal = none :=
  emergency_goal_fail_is_paused.2.2 c5Planner 1 "Fugir" "creeper" 0 (by decide) (by decide)

/-! ## Negotiation ledger theorems -/

theorem EcOp.run_append (e : Economy) (ops : List EcOp) (op : EcOp) :
    EcOp.run e (ops ++ [op]) = op.step (EcOp.run e ops) := by
  induction ops generalizing e with
  | nil => rfl
  | cons o ops ih =>
    rw [List.cons_append]
    exact ih (o.step e)

theorem setLedger_ledgers (e : Economy) (p : String) (Y : PlayerLedger) :
    (e.setLedger p Y).ledgers p = some Y := by
  unfold Economy.setLedger
  simp

theorem step_credit (e : Economy) (op : EcOp) :
    ∃ L, (op.step e).ledgers op.player = some L ∧
      L.credit_score = creditFormula L.debts_owed_to_us op.time := by
  cases op with
  | gift p i q r t => exact ⟨_, setLedger_ledgers e p _, rfl⟩
  | receive p i q t => exact ⟨_, setLedger_ledgers e p _, rfl⟩

/-- C2: after any sequence of record_gift and record_received calls and a
final such call on a counterparty at time t, that counterparty's ledger
exists and its credit_score equals exactly the clamped formula (paid
quantity times 5, minus unpaid quantity times 3, minus 10 per unpaid
debt older than 24 hours) evaluated on its current owed-to-us debt list
at t — it never diverges. -/
theorem credit_score_never_diverges (e : Economy) (ops : List EcOp) (op : EcOp) :
    ∃ L, (EcOp.run e (ops ++ [op])).ledgers op.player = some L ∧
      L.credit_score = creditFormula L.debts_owed_to_us op.time := by
  rw [EcOp.run_append]
  exact step_credit (EcOp.run e ops) op

/-- C7: evaluate_request decides by the documented checks in order:
unknown counterparty is Cautious; credit below -20 is Refuse citing the
unpaid quantity; more than 2 unpaid debts is Negotiate; value over the
richness threshold 20 (unknown items valued 1) is Negotiate; zero value
is Accept; otherwise Accept when credit exceeds 30, else Negotiate. A
known counterparty with credit at least 0 and fewer than 3 unpaid debts
is never Refused; one with credit below -20 always is. -/
theorem evaluate_request_spec (e : Economy) (p item : String) (q : Nat) :
    (e.ledgers p = none →
      e.evaluate_request p item q = .cautious "nunca negociei com vc antes") ∧
    (∀ L : PlayerLedger, e.ledgers p = some L →
      (L.credit_score < -20 →
        e.evaluate_request p item q = .refuse ("mano me deve " ++
          toString (unpaidQuantity L.debts_owed_to_us) ++
          " itens ainda e quer mais?? paga primeiro")) ∧
      (-20 ≤ L.credit_score → 2 < unpaidCount L.debts_owed_to_us →
        e.evaluate_request p item q = .negotiate ("te dei " ++
          toString (unpaidCount L.debts_owed_to_us) ++
          " coisas e tu n devolveu nada. me arruma algo primeiro")) ∧
      (-20 ≤ L.credit_score → unpaidCount L.debts_owed_to_us ≤ 2 →
        20 < itemValue e.item_values item * q →
        e.evaluate_request p item q = .negotiate (item ++ " x" ++ toString q ++
          " e muito caro. o que vc tem pra trocar?")) ∧
      (-20 ≤ L.credit_score → unpaidCount L.debts_owed_to_us ≤ 2 →
        itemValue e.item_values item * q = 0 →
        e.evaluate_request p item q = .accept "toma ai, isso n vale nada mesmo") ∧
      (-20 ≤ L.credit_score → unpaidCount L.debts_owed_to_us ≤ 2 →
        0 < itemValue e.item_values item * q → itemValue e.item_values item * q ≤ 20 →
        30 < L.credit_score →
        e.evaluate_request p item q = .accept "toma, vc e gnt boa") ∧
      (-20 ≤ L.credit_score → unpaidCount L.debts_owed_to_us ≤ 2 →
        0 < itemValue e.item_values item * q → itemValue e.item_values item * q ≤ 20 →
        L.credit_score ≤ 30 →
        e.evaluate_request p item q = .negotiate "depende, o que vc me da em troca?") ∧
      (0 ≤ L.credit_score → unpaidCount L.debts_owed_to_us < 3 →
        (e.evaluate_request p item q).isRefuse = false) ∧
      (L.credit_score < -20 → (e.evaluate_request p item q).isRefuse = true)) := by
  constructor
  · intro hnone
    unfold Economy.evaluate_request
    rw [hnone]
  · intro L hsome
    have hunf : e.evaluate_request p item q =
        (if L.credit_score < -20 then
          TradeDecision.refuse ("mano me deve " ++
            toString (unpaidQuantity L.debts_owed_to_us) ++
            " itens ainda e quer mais?? paga primeiro")
        else if 2 < unpaidCount L.debts_owed_to_us then
          TradeDecision.negotiate ("te dei " ++
            toString (unpaidCount L.debts_owed_to_us) ++
            " coisas e tu n devolveu nada. me arruma algo primeiro")
        else if 20 < itemValue e.item_values item * q then
          TradeDecision.negotiate (item ++ " x" ++ toString q ++
            " e muito caro. o que vc tem pra trocar?")
        else if itemValue e.item_values item * q = 0 then
          TradeDecision.accept "toma ai, isso n vale nada mesmo"
        else if 30 < L.credit_score then
          TradeDecision.accept "toma, vc e gnt boa"
        else
          TradeDecision.negotiate "depende, o que vc me da em troca?") := by
      unfold Economy.evaluate_request
      rw [hsome]
    refine ⟨?_, ?_, ?_, ?_, ?_, ?_, ?_, ?_⟩
    · intro h1
      rw [hunf, if_pos h1]
    · intro h1 h2
      rw [hunf, if_neg (by omega), if_pos h2]
    · intro h1 h2 h3
      rw [hunf, if_neg (by omega), if_neg (by omega), if_pos h3]
    · intro h1 h2 h3
      rw [hunf, if_neg (by omega), if_neg (by omega), if_neg (by omega), if_pos h3]
    · intro h1 h2 h3 h4 h5
      rw [hunf, if_neg (by omega), if_neg (by omega), if_neg (by omega),
        if_neg (by omega), if_pos h5]
    · intro h1 h2 h3 h4 h5
      rw [hunf, if_neg (by omega), if_neg (by omega), if_neg (by omega),
        if_neg (by omega), if_neg (by omega)]
    · intro h1 h2
      rw [hunf, if_neg (by omega), if_neg (by omega)]
      by_cases h3 : 20 < itemValue e.item_values item * q
      · rw [if_pos h3]; rfl
      · rw [if_neg h3]
        by_cases h4 : itemValue e.item_values item * q = 0
        · rw [if_pos h4]; rfl
        · rw [if_neg h4]
          by_cases h5 : 30 < L.credit_score
          · rw [if_pos h5]; rfl
          · rw [if_neg h5]; rfl
    · intro h1
      rw [hunf, if_pos h1]
      rfl

/-- Witness for C7: an unknown counterparty is Cautious; the deadbeat
counterparty is Refused, citing the 30 unpaid items. -/
theorem evaluate_request_spec_witness :
    Economy.new.evaluate_request "maria" "diamond" 1 =
      .cautious "nunca negociei com vc antes" ∧
    c7Economy.evaluate_request "joao" "iron_ingot" 1 = .refuse ("mano me deve " ++
      toString (unpaidQuantity c7Ledger.debts_owed_to_us) ++
      " itens ainda e quer mais?? paga primeiro") ∧
    (c7Economy.evaluate_request "joao" "iron_ingot" 1).isRefuse = true :=
  ⟨(evaluate_request_spec Economy.new "maria" "diamond" 1).1 rfl,
   ((evaluate_request_spec c7Economy "joao" "iron_ingot" 1).2 c7Ledger rfl).1 (by decide),
   ((evaluate_request_spec c7Economy "joao" "iron_ingot" 1).2 c7Ledger rfl).2.2.2.2.2.2.2
     (by decide)⟩

theorem newlyPaidQuantity_nil : newlyPaidQuantity [] [] = 0 := rfl

theorem newlyPaidQuantity_cons (d d' : Debt) (ds ds' : List Debt) :
    newlyPaidQuantity (d :: ds) (d' :: ds') =
      (if (!d.paid && d'.paid) = true then d.quantity else 0) +
        newlyPaidQuantity ds ds' := by
  unfold newlyPaidQuantity
  rw [List.zip_cons_cons, List.filter_cons]
  by_cases h : (!d.paid && d'.paid) = true
  · rw [if_pos h, if_pos h, List.map_cons, List.sum_cons]
  · rw [if_neg h, if_neg h, Nat.zero_add]

theorem markPaid_shape (it : String) : ∀ (r : Nat) (ds : List Debt),
    List.Forall₂ (fun d d' =>
      d'.item = d.item ∧ d'.quantity = d.quantity ∧ d'.created_at = d.created_at ∧
      d'.reason = d.reason ∧ (d.paid = true → d'.paid = true) ∧
      (d.paid = false → d'.paid = true → d.item = it ∧ d.quantity ≤ r))
      ds (markPaid r it ds).1
  | r, [] => List.Forall₂.nil
  | r, d :: ds => by
    by_cases hc : (!d.paid && d.item == it && decide (d.quantity ≤ r)) = true
    · have hres : (markPaid r it (d :: ds)).1 =
          { d with paid := true } :: (markPaid (r - d.quantity) it ds).1 := by
        simp only [markPaid]
        rw [if_pos hc]
      rw [hres]
      refine List.forall₂_cons.mpr ⟨?_, ?_⟩
      · have hsplit := hc
        simp only [Bool.and_eq_true, Bool.not_eq_true', beq_iff_eq,
          decide_eq_true_eq] at hsplit
        obtain ⟨⟨hpaid, hitem⟩, hqty⟩ := hsplit
        exact ⟨rfl, rfl, rfl, rfl, fun h => rfl, fun _ _ => ⟨hitem, hqty⟩⟩
      · refine (markPaid_shape it (r - d.quantity) ds).imp ?_
        intro a b hab
        refine ⟨hab.1, hab.2.1, hab.2.2.1, hab.2.2.2.1, hab.2.2.2.2.1, ?_⟩
        intro h1 h2
        obtain ⟨hi, hq⟩ := hab.2.2.2.2.2 h1 h2
        exact ⟨hi, Nat.le_trans hq (Nat.sub_le r d.quantity)⟩
    · have hres : (markPaid r it (d :: ds)).1 = d :: (markPaid r it ds).1 := by
        simp only [markPaid]
        rw [if_neg hc]
      rw [hres]
      refine List.forall₂_cons.mpr ⟨?_, markPaid_shape it r ds⟩
      refine ⟨rfl, rfl, rfl, rfl, fun h => h, ?_⟩
      intro h1 h2
      rw [h1] at h2
      cases h2

theorem markPaid_coverage (it : String) : ∀ (r : Nat) (ds : List Debt),
    newlyPaidQuantity ds (markPaid r it ds).1 + (markPaid r it ds).2 = r
  | r, [] => by
    show newlyPaidQuantity [] [] + r = r
    rw [newlyPaidQuantity_nil, Nat.zero_add]
  | r, d :: ds => by
    by_cases hc : (!d.paid && d.item == it && decide (d.quantity ≤ r)) = true
    · have hres : markPaid r it (d :: ds) =
          ({ d with paid := true } :: (markPaid (r - d.quantity) it ds).1,
            (markPaid (r - d.quantity) it ds).2) := by
        simp only [markPaid]
        rw [if_pos hc]
      rw [hres]
      have hsplit := hc
      simp only [Bool.and_eq_true, Bool.not_eq_true', beq_iff_eq,
        decide_eq_true_eq] at hsplit
      obtain ⟨⟨hpaid, hitem⟩, hqty⟩ := hsplit
      rw [newlyPaidQuantity_cons, if_pos (by simp [hpaid])]
      have ih := markPaid_coverage it (r - d.quantity) ds
      omega
    · have hres : markPaid r it (d :: ds) =
          (d :: (markPaid r it ds).1, (markPaid r it ds).2) := by
        simp only [markPaid]
        rw [if_neg hc]
      rw [hres]
      rw [newlyPaidQuantity_cons, if_neg (by cases hp : d.paid <;> simp [hp])]
      have ih := markPaid_coverage it r ds
      omega

theorem markPaid_nomatch (it : String) : ∀ (r : Nat) (ds : List Debt),
    (∀ d ∈ ds, d.paid = true ∨ d.item ≠ it) → (markPaid r it ds).1 = ds
  | r, [], _ => rfl
  | r, d :: ds, h => by
    have hc : (!d.paid && d.item == it && decide (d.quantity ≤ r)) = false := by
      rcases h d (List.mem_cons_self _ _) with h1 | h1 <;> simp [h1]
    have hres : markPaid r it (d :: ds) =
        (d :: (markPaid r it ds).1, (markPaid r it ds).2) := by
      simp only [markPaid]
      rw [if_neg (by simp [hc])]
    rw [hres]
    rw [markPaid_nomatch it r ds (fun x hx => h x (List.mem_cons_of_mem _ hx))]

/-- C8: record_received adds qty to the received totals for the item
(other items untouched), replaces the we-owe debts by the greedy marking
pass, leaves the owed-to-us debts alone and recomputes the credit score;
the greedy pass only flips unpaid same-item debts to paid, each only when
its full quantity fits the remaining received quantity (never splitting
— quantities and all other fields are unchanged), the total quantity
newly marked paid plus the leftover equals the received quantity, and
with no matching unpaid debt the debt list is unchanged (no error). -/
theorem record_received_spec :
    (∀ (e : Economy) (p item : String) (q : Nat) (t : Int),
      ∃ LL, (e.record_received p item q t).ledgers p = some LL ∧
        LL.total_received_from_them item =
          (e.get_ledger p).total_received_from_them item + q ∧
        (∀ j, j ≠ item → LL.total_received_from_them j =
          (e.get_ledger p).total_received_from_them j) ∧
        LL.debts_we_owe = (markPaid q item (e.get_ledger p).debts_we_owe).1 ∧
        LL.debts_owed_to_us = (e.get_ledger p).debts_owed_to_us ∧
        LL.credit_score = creditFormula LL.debts_owed_to_us t ∧
        (e.record_received p item q t).total_trades = e.total_trades + 1) ∧
    (∀ (it : String) (r : Nat) (ds : List Debt),
      List.Forall₂ (fun d d' =>
        d'.item = d.item ∧ d'.quantity = d.quantity ∧ d'.created_at = d.created_at ∧
        d'.reason = d.reason ∧ (d.paid = true → d'.paid = true) ∧
        (d.paid = false → d'.paid = true → d.item = it ∧ d.quantity ≤ r))
        ds (markPaid r it ds).1) ∧
    (∀ (it : String) (r : Nat) (ds : List Debt),
      newlyPaidQuantity ds (markPaid r it ds).1 + (markPaid r it ds).2 = r) ∧
    (∀ (it : String) (r : Nat) (ds : List Debt),
      (∀ d ∈ ds, d.paid = true ∨ d.item ≠ it) → (markPaid r it ds).1 = ds) := by
  refine ⟨?_, markPaid_shape, markPaid_coverage, markPaid_nomatch⟩
  intro e p item q t
  refine ⟨_, setLedger_ledgers e p _, ?_, ?_, rfl, rfl, rfl, rfl⟩
  · show bump (e.get_ledger p).total_received_from_them item q item = _
    unfold bump
    rw [if_pos rfl]
  · intro j hj
    show bump (e.get_ledger p).total_received_from_them item q j = _
    unfold bump
    rw [if_neg hj]

/-- Witness for C8: receiving bread with no matching we-owe debt still
updates totals and history; the greedy pass leaves a non-matching debt
list unchanged. -/
theorem record_received_spec_witness :
    (∃ LL, (Economy.new.record_received "pedro" "bread" 3 0).ledgers "pedro" = some LL ∧
      LL.total_received_from_them "bread" =
        (Economy.new.get_ledger "pedro").total_received_from_them "bread" + 3 ∧
      (∀ j, j ≠ "bread" → LL.total_received_from_them j =
        (Economy.new.get_ledger "pedro").total_received_from_them j) ∧
      LL.debts_we_owe = (markPaid 3 "bread" (Economy.new.get_ledger "pedro").debts_we_owe).1 ∧
      LL.debts_owed_to_us = (Economy.new.get_ledger "pedro").debts_owed_to_us ∧
      LL.credit_score = creditFormula LL.debts_owed_to_us 0 ∧
      (Economy.new.record_received "pedro" "bread" 3 0).total_trades =
        Economy.new.total_trades + 1) ∧
    (markPaid 5 "iron_ingot" [Debt.mk "diamond" 1 0 "x" false]).1 =
      [Debt.mk "diamond" 1 0 "x" false] :=
  ⟨record_received_spec.1 Economy.new "pedro" "bread" 3 0,
   record_received_spec.2.2.2 "iron_ingot" 5 [Debt.mk "diamond" 1 0 "x" false]
     (by decide)⟩

/-! ## Action queue executor theorems -/

theorem inject_fidgets_active {draws : FidgetDraws} {m : MotorInner}
    (h : m.active_action.isSome = true) : inject_fidgets draws m = m := by
  unfold inject_fidgets
  rw [if_pos (by simp [h])]

/-- C3 is refuted in its final clause: after installing the 40-tick sprint
and stepping 39 times (no dequeue, action retained with 1 tick left), the
40th step completes the action and dequeues the waiting chat command on
that same completing step — not on the tick after. -/
theorem completion_step_dequeues_same_tick :
    (runMotor 0 39 c3Installed).2 = List.replicate 39 none ∧
    (runMotor 0 39 c3Installed).1.active_action =
      some ⟨.startSprint 40, 1, 0⟩ ∧
    (handle noDraws 0 (runMotor 0 39 c3Installed).1).2 = some (.chat "oi") := by
  decide

/-- C3 (amended): while a timed action remains active after the tick's
decrement, handle only decrements the counter — the state is otherwise
untouched and nothing is dequeued; when the decrement reaches zero, the
completion side effect runs and the pending queue is dequeued on that
same tick; concretely, a 40-tick sprint stays installed through 39 steps
with no dequeue, and on the 40th step the sprint flag is cleared, the
slot emptied, and the waiting chat command dequeued immediately. -/
theorem action_queue_serialization :
    (∀ (m : MotorInner) (draws : FidgetDraws) (now : Nat) (a : ActiveAction),
      m.active_action = some a → 2 ≤ a.ticks_remaining →
      handle draws now m =
        ({ m with tick_counter := m.tick_counter + 1, active_action := some { a with ticks_remaining := a.ticks_remaining - 1 } }, none)) ∧
    (∀ (m : MotorInner) (draws : FidgetDraws) (now : Nat) (a : ActiveAction),
      m.active_action = some a → a.ticks_remaining ≤ 1 →
      handle draws now m =
        dequeue_and_execute now
          (finish_action { m with tick_counter := m.tick_counter + 1 } a.command)) ∧
    (c3Installed.active_action = some ⟨.startSprint 40, 40, 0⟩ ∧
      c3Installed.is_sprinting = true ∧
      (runMotor 0 39 c3Installed).2 = List.replicate 39 none ∧
      (runMotor 0 39 c3Installed).1.active_action =
        some ⟨.startSprint 40, 1, 0⟩ ∧
      (handle noDraws 0 (runMotor 0 39 c3Installed).1).2 = some (.chat "oi") ∧
      (handle noDraws 0 (runMotor 0 39 c3Installed).1).1.is_sprinting = false ∧
      (handle noDraws 0 (runMotor 0 39 c3Installed).1).1.active_action = none) := by
  refine ⟨?_, ?_, by decide⟩
  · intro m draws now a ha h2
    have hm1 : inject_fidgets draws { m with tick_counter := m.tick_counter + 1 } =
        { m with tick_counter := m.tick_counter + 1 } :=
      inject_fidgets_active (by simp [ha])
    simp only [handle]
    rw [hm1]
    simp only [ha]
    rw [if_neg (by omega)]
  · intro m draws now a ha h1
    have hm1 : inject_fidgets draws { m with tick_counter := m.tick_counter + 1 } =
        { m with tick_counter := m.tick_counter + 1 } :=
      inject_fidgets_active (by simp [ha])
    simp only [handle]
    rw [hm1]
    simp only [ha]
    rw [if_pos (by omega)]

/-- Witness for C3 (amended): the first step after installing the sprint
decrements 40 to 39 and dequeues nothing. -/
theorem action_queue_serialization_witness :
    handle noDraws 0 c3Installed =
      ({ c3Installed with tick_counter := c3Installed.tick_counter + 1, active_action := some ⟨.startSprint 40, 39, 0⟩ }, none) :=
  action_queue_serialization.1 c3Installed noDraws 0
    ⟨.startSprint 40, 40, 0⟩ (by decide) (by decide)

/-! ## Threat predictor theorems -/

/-- C9 is refuted: hunger at the low threshold (6), health 15 and no food
available yields no ThreatRecord at all, where the claim requires a
Medium EatNow record. -/
theorem starvation_no_record_gap :
    (6 : Nat) ≤ 6 ∧
    (SpiderSense.mk [] 0 0).predict_starvation 6 15 false = none := by
  exact ⟨by decide, by decide⟩

/-- C9 (amended): once hunger is at or below 6, the starvation evaluator
returns an EatNow record that is Critical when health is below 4 with no
food, High when health is in [4, 10) with no food, and Medium when food
is available; but with no food and health at least 10 it returns none;
above hunger 6 it returns none; and the result is a pure function of the
explicit inputs (independent of the SpiderSense state, hence identical on
repeated calls). -/
theorem predict_starvation_spec (s : SpiderSense) (food_level : Nat) (hp : Rat)
    (has_food : Bool) :
    (food_level ≤ 6 → has_food = false → hp < 4 →
      s.predict_starvation food_level hp has_food = some
        { threat_type := .starvationDeath, level := .critical,
          description := "Fome: " ++ toString food_level ++ " | HP: " ++ fmtHp hp ++
            " | Sem comida!",
          recommended_action := .eatNow, time_to_impact_ms := 2000 }) ∧
    (food_level ≤ 6 → has_food = false → 4 ≤ hp → hp < 10 →
      s.predict_starvation food_level hp has_food = some
        { threat_type := .starvationDeath, level := .high,
          description := "Fome: " ++ toString food_level ++ " | HP: " ++ fmtHp hp ++
            " | Sem comida!",
          recommended_action := .eatNow, time_to_impact_ms := 10000 }) ∧
    (food_level ≤ 6 → has_food = true →
      s.predict_starvation food_level hp has_food = some
        { threat_type := .starvationDeath, level := .medium,
          description := "Fome baixa, comer agora",
          recommended_action := .eatNow, time_to_impact_ms := 5000 }) ∧
    (food_level ≤ 6 → has_food = false → 10 ≤ hp →
      s.predict_starvation food_level hp has_food = none) ∧
    (6 < food_level → s.predict_starvation food_level hp has_food = none) ∧
    (∀ s₂ : SpiderSense, s₂.predict_starvation food_level hp has_food =
      s.predict_starvation food_level hp has_food) := by
  refine ⟨?_, ?_, ?_, ?_, ?_, fun s₂ => rfl⟩
  · intro h1 h2 h3
    have h10 : hp < 10 := lt_trans h3 (by norm_num)
    unfold SpiderSense.predict_starvation
    rw [if_pos (by simp [h1, h2, h10]), if_pos h3, if_pos h3]
  · intro h1 h2 h3 h4
    unfold SpiderSense.predict_starvation
    rw [if_pos (by simp [h1, h2, h4]), if_neg (not_lt.mpr h3), if_neg (not_lt.mpr h3)]
  · intro h1 h2
    unfold SpiderSense.predict_starvation
    rw [if_neg (by simp [h2]), if_pos (by simp [h1, h2])]
  · intro h1 h2 h3
    unfold SpiderSense.predict_starvation
    rw [if_neg (by simp [not_lt.mpr h3]), if_neg (by simp [h2])]
  · intro h1
    unfold SpiderSense.predict_starvation
    rw [if_neg (by simp; omega), if_neg (by simp; omega)]

/-- Witness for C9 (amended): health 3 with no food gives the Critical
record; hunger 5 with food at full health gives the Medium record. -/
theorem predict_starvation_spec_witness :
    (SpiderSense.mk [] 0 0).predict_starvation 6 3 false = some
      { threat_type := .starvationDeath, level := .critical,
        description := "Fome: " ++ toString (6 : Nat) ++ " | HP: " ++ fmtHp 3 ++
          " | Sem comida!",
        recommended_action := .eatNow, time_to_impact_ms := 2000 } ∧
    (SpiderSense.mk [] 0 0).predict_starvation 5 20 true = some
      { threat_type := .starvationDeath, level := .medium,
        description := "Fome baixa, comer agora",
        recommended_action := .eatNow, time_to_impact_ms := 5000 } :=
  ⟨(predict_starvation_spec (SpiderSense.mk [] 0 0) 6 3 false).1
      (by decide) rfl (by norm_num),
   (predict_starvation_spec (SpiderSense.mk [] 0 0) 5 20 true).2.2.1
      (by decide) rfl⟩
